import Mathlib

/-!
ESP-FLY: command link and power management

A shallow embedding of three firmware sources and the properties proved of them:

* `components/drivers/general/wifi/config_receiver.c` (config command processor),
* `components/drivers/general/wifi/wifi_esp32.c` (UDP receive path and checksum),
* `components/core/crazyflie/hal/src/pm_esplane.c` (battery level and power state machine).

Conventions.  A byte is a `Nat` below 256 and byte arithmetic is written with an explicit
`% 256`; a 32-bit tick count is a `Nat` with an explicit `% 2 ^ 32`.  A `float` that is only
copied (the PID coefficients) is carried as its 32-bit pattern; a `float` that is only
compared (the battery voltage) is carried as the rational number it denotes.  Calls to
collaborators that live outside these sources (queue send, console, flight-enable setter)
are recorded in the state, in call order.
-/

namespace EspFly

/-! ## config_receiver.h / config_receiver.c -/

def CONFIG_CMD_WIFI_SSID : Nat := 0x01
def CONFIG_CMD_WIFI_PASSWORD : Nat := 0x02
def CONFIG_CMD_FLIGHT_PARAMS : Nat := 0x03
def CONFIG_CMD_PID_PARAMS : Nat := 0x04
def CONFIG_CMD_DEVICE_NAME : Nat := 0x05
def CONFIG_CMD_GENERAL_CONFIG : Nat := 0x06
def CONFIG_CMD_TEST : Nat := 0xFF
def CONFIG_CMD_PID_QUERY : Nat := 0x84

/-- The struct `ConfigPacket`: `data` holds the bytes that were copied into the 62-byte
array (the rest of the array is never written by `configReceiverProcess`). -/
structure ConfigPacket where
  cmd_type : Nat
  data_len : Nat
  data : List Nat
deriving DecidableEq, Repr

/-- The packed struct `PIDConfig`; `kp`, `ki`, `kd` are 32-bit float patterns. -/
structure PIDConfig where
  axis : Nat
  kp : Nat
  ki : Nat
  kd : Nat
  isRateLoop : Nat
deriving DecidableEq, Repr

/-- Size in bytes of the packed `PIDConfig` (1 + 4 + 4 + 4 + 1). -/
def sizeof_PIDConfig : Nat := 14

/-- Size in bytes of `FlightConfig` (two floats and a byte, padded to a multiple of 4). -/
def sizeof_FlightConfig : Nat := 12

/-- Modelled from the spec: `PidObject` is declared in pid.h, which is not among the
sources; the spec gives each PID target the three coefficients (Kp, Ki, Kd). -/
structure PidObject where
  kp : Nat
  ki : Nat
  kd : Nat
deriving DecidableEq, Repr

/-- Modelled from the spec: `pidSetKp` of pid.c overwrites the proportional coefficient. -/
def pidSetKp (pid : PidObject) (kp : Nat) : PidObject := { pid with kp := kp }

/-- Modelled from the spec: `pidSetKi` of pid.c overwrites the integral coefficient. -/
def pidSetKi (pid : PidObject) (ki : Nat) : PidObject := { pid with ki := ki }

/-- Modelled from the spec: `pidSetKd` of pid.c overwrites the derivative coefficient. -/
def pidSetKd (pid : PidObject) (kd : Nat) : PidObject := { pid with kd := kd }

/-- The six global PID objects a `targetPid` pointer can refer to. -/
inductive PidTarget
  | pidRollRate
  | pidPitchRate
  | pidYawRate
  | pidRoll
  | pidPitch
  | pidYaw
deriving DecidableEq, Repr

/-- The six global `PidObject`s that config_receiver.c refers to. -/
structure PidBank where
  pidRollRate : PidObject
  pidPitchRate : PidObject
  pidYawRate : PidObject
  pidRoll : PidObject
  pidPitch : PidObject
  pidYaw : PidObject
deriving DecidableEq, Repr

/-- Read through a `targetPid` pointer. -/
def PidBank.get (b : PidBank) : PidTarget → PidObject
  | .pidRollRate => b.pidRollRate
  | .pidPitchRate => b.pidPitchRate
  | .pidYawRate => b.pidYawRate
  | .pidRoll => b.pidRoll
  | .pidPitch => b.pidPitch
  | .pidYaw => b.pidYaw

/-- Write through a `targetPid` pointer. -/
def PidBank.set (b : PidBank) (t : PidTarget) (p : PidObject) : PidBank :=
  match t with
  | .pidRollRate => { b with pidRollRate := p }
  | .pidPitchRate => { b with pidPitchRate := p }
  | .pidYawRate => { b with pidYawRate := p }
  | .pidRoll => { b with pidRoll := p }
  | .pidPitch => { b with pidPitch := p }
  | .pidYaw => { b with pidYaw := p }

/-- One `consolePrintf` call of config_receiver.c.  `pidSet` carries the two table indices
the call reads (`loop_names[..]`, `axis_names[..]`) and the three coefficients. -/
inductive ConsoleMsg
  | pidSet (loopIdx axisIdx kp ki kd : Nat)
  | pidHeader
  | attitudeLoop
  | rateLoop
  | pidLine (t : PidTarget) (kp ki kd : Nat)
  | pidFooter
deriving DecidableEq, Repr

/-- One diagnostic block of `configReceiverPrint` / `configReceiverApplyPID`
(`DEBUG_PRINT_LOCAL`), with the values it prints; a table lookup is recorded by its index. -/
inductive CfgLog
  | received (cmd_type data_len : Nat)
  | wifiSsid (ssid : List Nat)
  | wifiPassword (password : List Nat)
  | flightParams (max_speed max_altitude flight_mode : Nat)
  | pidParams (loopIdx axisIdx kp ki kd : Nat)
  | pidApplied (loopIdx axisIdx kp ki kd : Nat)
  | pidQuery
  | deviceName (name : List Nat)
  | generalConfig (bytes : List Nat)
  | test (msg : List Nat)
  | unknown (cmd_type : Nat) (bytes : List Nat)
deriving DecidableEq, Repr

/-- What the config command processor reads and writes: the six PID objects, the console
and the diagnostic log. -/
structure CfgState where
  pids : PidBank
  console : List ConsoleMsg
  log : List CfgLog
deriving DecidableEq, Repr

/-- Little-endian 32-bit load from a byte array at offset `i`. -/
def le32 (data : List Nat) (i : Nat) : Nat :=
  data.getD i 0 + 256 * data.getD (i + 1) 0 + 65536 * data.getD (i + 2) 0
    + 16777216 * data.getD (i + 3) 0

/-- The cast `(PIDConfig *)config->data` on the packed layout. -/
def PIDConfig.ofBytes (data : List Nat) : PIDConfig :=
  { axis := data.getD 0 0
    kp := le32 data 1
    ki := le32 data 5
    kd := le32 data 9
    isRateLoop := data.getD 13 0 }

/-- The selection of `targetPid` in `configReceiverApplyPID`: `none` is the `default: return`. -/
def selectTargetPid (pid : PIDConfig) : Option PidTarget :=
  if pid.isRateLoop ≠ 0 then
    match pid.axis with
    | 0 => some .pidRollRate
    | 1 => some .pidPitchRate
    | 2 => some .pidYawRate
    | _ => none
  else
    match pid.axis with
    | 0 => some .pidRoll
    | 1 => some .pidPitch
    | 2 => some .pidYaw
    | _ => none

/-- The index `pid->isRateLoop ? 1 : 0` into `loop_names`. -/
def loopIndex (pid : PIDConfig) : Nat := if pid.isRateLoop ≠ 0 then 1 else 0

/-- `configReceiverApplyPID`; `none` is the NULL pointer. -/
def configReceiverApplyPID (pid : Option PIDConfig) (s : CfgState) : CfgState :=
  match pid with
  | none => s
  | some pid =>
    match selectTargetPid pid with
    | none => s
    | some targetPid =>
      let p := pidSetKd (pidSetKi (pidSetKp (s.pids.get targetPid) pid.kp) pid.ki) pid.kd
      { pids := s.pids.set targetPid p
        log := s.log ++ [.pidApplied (loopIndex pid) pid.axis pid.kp pid.ki pid.kd]
        console := s.console ++ [.pidSet (loopIndex pid) pid.axis pid.kp pid.ki pid.kd] }

/-- `configReceiverSendAllPID`. -/
def configReceiverSendAllPID (s : CfgState) : CfgState :=
  let line (t : PidTarget) : ConsoleMsg :=
    .pidLine t (s.pids.get t).kp (s.pids.get t).ki (s.pids.get t).kd
  { s with
    console := s.console ++
      [.pidHeader, .attitudeLoop, line .pidRoll, line .pidPitch, line .pidYaw,
       .rateLoop, line .pidRollRate, line .pidPitchRate, line .pidYawRate, .pidFooter] }

/-- `configReceiverPrint`; `none` is the NULL pointer. -/
def configReceiverPrint (config : Option ConfigPacket) (s : CfgState) : CfgState :=
  match config with
  | none => s
  | some config =>
    let s := { s with log := s.log ++ [.received config.cmd_type config.data_len] }
    if config.cmd_type = CONFIG_CMD_WIFI_SSID then
      { s with log := s.log ++
          [.wifiSsid (config.data.take (if config.data_len > 32 then 32 else config.data_len))] }
    else if config.cmd_type = CONFIG_CMD_WIFI_PASSWORD then
      { s with log := s.log ++
          [.wifiPassword (config.data.take (if config.data_len > 64 then 64 else config.data_len))] }
    else if config.cmd_type = CONFIG_CMD_FLIGHT_PARAMS then
      if config.data_len ≥ sizeof_FlightConfig then
        { s with log := s.log ++
            [.flightParams (le32 config.data 0) (le32 config.data 4) (config.data.getD 8 0)] }
      else s
    else if config.cmd_type = CONFIG_CMD_PID_PARAMS then
      if config.data_len ≥ sizeof_PIDConfig then
        let pid := PIDConfig.ofBytes config.data
        let s := { s with log := s.log ++
          [.pidParams (loopIndex pid) pid.axis pid.kp pid.ki pid.kd] }
        configReceiverApplyPID (some pid) s
      else s
    else if config.cmd_type = CONFIG_CMD_PID_QUERY then
      configReceiverSendAllPID { s with log := s.log ++ [.pidQuery] }
    else if config.cmd_type = CONFIG_CMD_DEVICE_NAME then
      { s with log := s.log ++
          [.deviceName (config.data.take (if config.data_len > 62 then 62 else config.data_len))] }
    else if config.cmd_type = CONFIG_CMD_GENERAL_CONFIG then
      { s with log := s.log ++ [.generalConfig (config.data.take config.data_len)] }
    else if config.cmd_type = CONFIG_CMD_TEST then
      { s with log := s.log ++
          [.test (config.data.take (if config.data_len > 62 then 62 else config.data_len))] }
    else
      { s with log := s.log ++
          [.unknown config.cmd_type (config.data.take (min config.data_len 62))] }

/-- `configReceiverProcess(data, len)`; `data = none` is the NULL pointer.  `data_len` is a
`uint8_t`, so `len - 2` is reduced modulo 256 before the cap at 62. -/
def configReceiverProcess (data : Option (List Nat)) (len : Nat) (s : CfgState) :
    Bool × CfgState :=
  match data with
  | none => (false, s)
  | some data =>
    if len < 2 then (false, s)
    else if data.getD 0 0 ≠ 0xAA then (false, s)
    else
      let data_len := (len - 2) % 256
      let data_len := if data_len > 62 then 62 else data_len
      let config : ConfigPacket :=
        { cmd_type := data.getD 1 0
          data_len := data_len
          data := (data.drop 2).take data_len }
      (true, configReceiverPrint (some config) s)

/-! ## wifi_esp32.c -/

/-- The struct `UDPPacket`: a size and a byte array of `WIFI_RX_TX_PACKET_SIZE` bytes. -/
structure UDPPacket where
  size : Nat
  data : List Nat
deriving DecidableEq, Repr

/-- `calculate_cksum`: the running `unsigned char` sum of the first `len` bytes. -/
def calculate_cksum (data : List Nat) (len : Nat) : Nat :=
  (data.take len).foldl (fun cksum c => (cksum + c) % 256) 0

/-- `memcpy(dst, src, n)` on byte arrays: the first `n` bytes of `dst` are replaced. -/
def memcpy (dst src : List Nat) (n : Nat) : List Nat :=
  src.take n ++ dst.drop n

/-- The statics the receive task works on.  `udpDataRx` lists the packets handed to
`xQueueSend(udpDataRx, &inPacket, ..)`, oldest first. -/
structure WifiState where
  inPacket : UDPPacket
  isUDPConnected : Bool
  udpDataRx : List UDPPacket
  cfg : CfgState
deriving DecidableEq, Repr

/-- One pass of the loop of `udp_server_rx_task` with `isUDPInit` set, after `recvfrom`
has stored the datagram `rx`, so `len = rx.length`; the arm `len < 0` (receive error,
`break`) belongs to no datagram and is not part of the pass.  `W` is
`WIFI_RX_TX_PACKET_SIZE`, whose definition (wifi_esp32.h) is not among the sources.  The
result is `none` for `len = 0`, where the code reads `inPacket.data[-1]` and checksums
`(size_t)-1` bytes. -/
def udp_server_rx_task (W : Nat) (s : WifiState) (rx : List Nat) : Option WifiState :=
  let len : Int := rx.length
  if len > (W : Int) - 4 then some s
  else if rx.length = 0 then none
  else
    let data := memcpy s.inPacket.data rx rx.length
    let cksum := data.getD (rx.length - 1) 0
    let inPacket : UDPPacket := { size := rx.length - 1, data := data }
    let calc_cksum := calculate_cksum inPacket.data (rx.length - 1)
    if inPacket.data.getD 0 0 = 0xAA then
      let r := configReceiverProcess (some inPacket.data) inPacket.size s.cfg
      if r.1 then
        some { s with inPacket := inPacket, cfg := r.2, isUDPConnected := true }
      else
        some { s with inPacket := inPacket, cfg := r.2 }
    else if cksum = calc_cksum ∧ inPacket.size < 64 then
      some { s with
        inPacket := inPacket
        udpDataRx := s.udpDataRx ++ [inPacket]
        isUDPConnected := true }
    else
      some { s with inPacket := inPacket }

/-- A control frame as the transmit path puts it on the wire: header, payload, then the
checksum byte `(h + sum P) mod 256` (see `frame_eq_calculate_cksum`). -/
def frame (h : Nat) (P : List Nat) : List Nat :=
  h :: P ++ [(h + P.sum) % 256]


/-! ## pm_esplane.c -/

/-- The states `pmUpdateState` returns and `pmTask` switches on (the enum `PMStates` is
declared in pm_esplane.h, which is not among the sources). -/
inductive PMStates
  | battery
  | charging
  | charged
  | lowPower
deriving DecidableEq, Repr

/-- The two flag bits of `PmSyslinkInfo` that the state machine reads. -/
structure PmSyslinkInfo where
  chg : Bool
  pgood : Bool
deriving DecidableEq, Repr

/-- The sound effects `pmTask` selects on a state change. -/
inductive SoundEffect
  | SND_BAT_FULL
  | SND_USB_CONN
  | SND_BAT_LOW
  | SND_USB_DISC
deriving DecidableEq, Repr

/-- Constants of pm_esplane.h and of the tick configuration that are not among the sources. -/
structure PmConfig where
  PM_BAT_LOW_VOLTAGE : ℚ
  PM_BAT_CRITICAL_LOW_VOLTAGE : ℚ
  PM_BAT_LOW_TIMEOUT : Nat
  PM_BAT_CRITICAL_LOW_TIMEOUT : Nat
  PM_SYSTEM_SHUTDOWN_TIMEOUT : Nat
  /-- Value of `M2T(BATTERY_INFO_SEND_INTERVAL_MS)` in ticks. -/
  batteryInfoSendTicks : Nat

/-- What `pmSendBatteryInfo` copies into its send buffer after the header byte. -/
structure BatteryInfo where
  vbat : ℚ
  vbatMV : Nat
  level : Nat
  state : PMStates
deriving DecidableEq, Repr

/-- The file-scope statics of pm_esplane.c, the locals of `pmTask` that live across loop
passes, and the calls made to collaborators (each list in call order). -/
structure PmState where
  batteryVoltage : ℚ
  batteryVoltageMV : Nat
  batteryVoltageMin : ℚ
  batteryVoltageMax : ℚ
  extBatteryVoltage : ℚ
  extBatteryVoltageMV : Nat
  extBatteryCurrent : ℚ
  batteryLowTimeStamp : Nat
  batteryCriticalLowTimeStamp : Nat
  pmState : PMStates
  pmSyslinkInfo : PmSyslinkInfo
  batteryLevel : Nat
  pmStateOld : PMStates
  tickCount : Nat
  batteryInfoPrinted : Bool
  lastBatterySendTick : Nat
  /-- Arguments of the `systemSetCanFly` calls. -/
  canFlyCalls : List Bool
  /-- Arguments of the `soundSetEffect` calls. -/
  soundCalls : List SoundEffect
  /-- Arguments of the `ledseqSetChargeLevel` calls. -/
  chargeLevelCalls : List ℚ
  /-- Number of `pmSystemShutdown` calls. -/
  shutdownCalls : Nat
  /-- Frames handed to `wifiSendData` by `pmSendBatteryInfo`. -/
  sentBatteryInfo : List BatteryInfo
deriving DecidableEq, Repr

/-- What one pass of the `pmTask` loop reads from its collaborators. -/
structure PmTick where
  /-- Result of `pmMeasureExtBatteryVoltage()`. -/
  extBatteryVoltage : ℚ
  /-- Result of `pmMeasureExtBatteryCurrent()`. -/
  extBatteryCurrent : ℚ
  /-- Result of `xTaskGetTickCount()` in the loop body. -/
  tickCount : Nat
  /-- Result of `xTaskGetTickCount()` inside `pmUpdateState`. -/
  updateTick : Nat
  /-- Value of `pmSyslinkInfo` when `pmUpdateState` reads it. -/
  pmSyslinkInfo : PmSyslinkInfo
  /-- Result of `commanderGetInactivityTime()`. -/
  inactivityTime : Nat

/-- Subtraction of two `uint32_t` values. -/
def sub32 (a b : Nat) : Nat := (a % 2 ^ 32 + 2 ^ 32 - b % 2 ^ 32) % 2 ^ 32

/-- The conversion `(uint16_t)(voltage * 1000)` for a voltage in range. -/
def toUint16 (x : ℚ) : Nat := (Int.toNat ⌊x⌋) % 2 ^ 16

/-- The table `bat671723HS25C`. -/
def bat671723HS25C : List ℚ :=
  [3.00, 3.78, 3.83, 3.87, 3.89, 3.92, 3.96, 4.00, 4.04, 4.10]

/-- `pmSetBatteryVoltage`. -/
def pmSetBatteryVoltage (s : PmState) (voltage : ℚ) : PmState :=
  let s := { s with batteryVoltage := voltage, batteryVoltageMV := toUint16 (voltage * 1000) }
  let s := if s.batteryVoltageMax < voltage then { s with batteryVoltageMax := voltage } else s
  if s.batteryVoltageMin > voltage then { s with batteryVoltageMin := voltage } else s

/-- The loop `while (voltage > bat671723HS25C[charge]) charge++` entered with the given
`charge`; the result is the final `charge`, or `none` when the loop reads past the table. -/
def chargeSearch (voltage : ℚ) (charge : Nat) : Option Nat :=
  if h : charge < bat671723HS25C.length then
    if voltage > bat671723HS25C[charge] then chargeSearch voltage (charge + 1) else some charge
  else none
termination_by bat671723HS25C.length - charge

/-- `pmBatteryChargeFromVoltage`. -/
def pmBatteryChargeFromVoltage (voltage : ℚ) : Option Nat :=
  if voltage < bat671723HS25C.getD 0 0 then some 0
  else if voltage > bat671723HS25C.getD 9 0 then some 9
  else chargeSearch voltage 0

/-- The level percent `pmTask` stores in the `uint8_t batteryLevel`. -/
def batteryLevelOf (voltage : ℚ) : Option Nat :=
  (pmBatteryChargeFromVoltage voltage).map fun charge => (charge * 10) % 256

/-- `pmUpdateState`, with `now` the result of its `xTaskGetTickCount()` call. -/
def pmUpdateState (cfg : PmConfig) (info : PmSyslinkInfo) (now batteryLowTimeStamp : Nat) :
    PMStates :=
  let isCharging := info.chg
  let isPgood := info.pgood
  let batteryLowTime := sub32 now batteryLowTimeStamp
  if isPgood && !isCharging then .charged
  else if isPgood && isCharging then .charging
  else if !isPgood && !isCharging && decide (batteryLowTime > cfg.PM_BAT_LOW_TIMEOUT) then
    .lowPower
  else .battery

/-- `pmSendBatteryInfo`: the fields copied into the frame handed to `wifiSendData`. -/
def pmSendBatteryInfo (s : PmState) : PmState :=
  { s with sentBatteryInfo := s.sentBatteryInfo ++
      [{ vbat := s.batteryVoltage, vbatMV := s.batteryVoltageMV,
         level := s.batteryLevel, state := s.pmState }] }

/-- The "actions on state change" switch of `pmTask`.  Its `default:` arm (also
`systemSetCanFly(true)`) is not reached by any of the four states `pmUpdateState` returns. -/
def pmStateChangeActions (s : PmState) : PmState :=
  match s.pmState with
  | .charged =>
    { s with soundCalls := s.soundCalls ++ [.SND_BAT_FULL], canFlyCalls := s.canFlyCalls ++ [false] }
  | .charging =>
    { s with soundCalls := s.soundCalls ++ [.SND_USB_CONN], canFlyCalls := s.canFlyCalls ++ [false] }
  | .lowPower =>
    { s with soundCalls := s.soundCalls ++ [.SND_BAT_LOW], canFlyCalls := s.canFlyCalls ++ [true] }
  | .battery =>
    { s with soundCalls := s.soundCalls ++ [.SND_USB_DISC], canFlyCalls := s.canFlyCalls ++ [true] }

/-- The "actions during state" switch of `pmTask`. -/
def pmDuringStateActions (cfg : PmConfig) (s : PmState) (inactivityTime : Nat) :
    Option PmState :=
  match s.pmState with
  | .charged => some s
  | .charging =>
    (pmBatteryChargeFromVoltage s.batteryVoltage).map fun charge =>
      { s with chargeLevelCalls := s.chargeLevelCalls ++ [(charge : ℚ) / 10] }
  | .lowPower =>
    let batteryCriticalLowTime := sub32 s.tickCount s.batteryCriticalLowTimeStamp
    if batteryCriticalLowTime > cfg.PM_BAT_CRITICAL_LOW_TIMEOUT then
      some { s with shutdownCalls := s.shutdownCalls + 1 }
    else some s
  | .battery =>
    if inactivityTime > cfg.PM_SYSTEM_SHUTDOWN_TIMEOUT then
      some { s with shutdownCalls := s.shutdownCalls + 1 }
    else some s

/-- The statements of `pmTask` before its loop: `tickCount0` is the tick count read there. -/
def pmTaskStart (s : PmState) (tickCount0 : Nat) : PmState :=
  { s with
    pmStateOld := .battery
    tickCount := tickCount0
    batteryLowTimeStamp := tickCount0
    batteryCriticalLowTimeStamp := tickCount0 }

/-- First block of the loop body of `pmTask`: measure, `pmSetBatteryVoltage`, compute
`batteryLevel`, read `tickCount`.  The result is `none` only if the breakpoint search reads
past its table. -/
def pmTaskMeasure (s : PmState) (i : PmTick) : Option PmState :=
  let s := { s with
    extBatteryVoltage := i.extBatteryVoltage
    extBatteryVoltageMV := toUint16 (i.extBatteryVoltage * 1000)
    extBatteryCurrent := i.extBatteryCurrent }
  let s := pmSetBatteryVoltage s s.extBatteryVoltage
  (batteryLevelOf s.batteryVoltage).map fun level =>
    { s with batteryLevel := level, batteryInfoPrinted := true, tickCount := i.tickCount }

/-- Second block: the timed call of `pmSendBatteryInfo`. -/
def pmTaskReport (cfg : PmConfig) (s : PmState) : PmState :=
  if sub32 s.tickCount s.lastBatterySendTick ≥ cfg.batteryInfoSendTicks then
    pmSendBatteryInfo { s with lastBatterySendTick := s.tickCount }
  else s

/-- Third block: the two "last seen above threshold" time stamps. -/
def pmTaskStamps (cfg : PmConfig) (s : PmState) : PmState :=
  let s :=
    if s.batteryVoltage > cfg.PM_BAT_LOW_VOLTAGE then
      { s with batteryLowTimeStamp := s.tickCount }
    else s
  if s.batteryVoltage > cfg.PM_BAT_CRITICAL_LOW_VOLTAGE then
    { s with batteryCriticalLowTimeStamp := s.tickCount }
  else s

/-- Fourth block: `pmState = pmUpdateState()` and the actions on a state change. -/
def pmTaskUpdate (cfg : PmConfig) (s : PmState) (i : PmTick) : PmState :=
  let s := { s with
    pmSyslinkInfo := i.pmSyslinkInfo
    pmState := pmUpdateState cfg i.pmSyslinkInfo i.updateTick s.batteryLowTimeStamp }
  if s.pmState ≠ s.pmStateOld then
    { pmStateChangeActions s with pmStateOld := s.pmState }
  else s

/-- One pass of the `while (1)` loop of `pmTask`: the four blocks above, then the
"actions during state" switch. -/
def pmTaskLoop (cfg : PmConfig) (s : PmState) (i : PmTick) : Option PmState :=
  (pmTaskMeasure s i).bind fun s =>
    pmDuringStateActions cfg (pmTaskUpdate cfg (pmTaskStamps cfg (pmTaskReport cfg s)) i)
      i.inactivityTime

/-- The loop of `pmTask` run over a list of ticks, first tick first. -/
def pmTaskRun (cfg : PmConfig) (s : PmState) : List PmTick → Option PmState
  | [] => some s
  | i :: rest => (pmTaskLoop cfg s i).bind fun s' => pmTaskRun cfg s' rest

/-- `pmTask`: the statements before the loop, then the loop over the given ticks. -/
def pmTask (cfg : PmConfig) (s : PmState) (tickCount0 : Nat) (ticks : List PmTick) :
    Option PmState :=
  pmTaskRun cfg (pmTaskStart s tickCount0) ticks

/-! ## Initial states and the reference rule used in the statements -/

/-- A bank of PID objects with all coefficients zero. -/
def PidBank.zero : PidBank :=
  ⟨⟨0, 0, 0⟩, ⟨0, 0, 0⟩, ⟨0, 0, 0⟩, ⟨0, 0, 0⟩, ⟨0, 0, 0⟩, ⟨0, 0, 0⟩⟩

/-- The statics of wifi_esp32.c before the first datagram: `inPacket` zeroed,
`isUDPConnected = false`, nothing sent to the queue. -/
def WifiState.init (W : Nat) (pids : PidBank) : WifiState :=
  { inPacket := ⟨0, List.replicate W 0⟩
    isUDPConnected := false
    udpDataRx := []
    cfg := { pids := pids, console := [], log := [] } }

/-- The buffer `inPacket.data` after the copy of a datagram `body ++ [ck]`. -/
def rxData (s : WifiState) (body : List Nat) (ck : Nat) : List Nat :=
  body ++ ([ck] ++ s.inPacket.data.drop (body.length + 1))

/-- The statics of pm_esplane.c at start-up: zero-initialised except for the two
initialisers `batteryVoltageMin = 6.0` and `batteryVoltageMax = 0.0`.  `pmState0` is the
enumerator with value 0 of `PMStates`. -/
def PmState.initial (pmState0 : PMStates) : PmState :=
  { batteryVoltage := 0
    batteryVoltageMV := 0
    batteryVoltageMin := 6.0
    batteryVoltageMax := 0.0
    extBatteryVoltage := 0
    extBatteryVoltageMV := 0
    extBatteryCurrent := 0
    batteryLowTimeStamp := 0
    batteryCriticalLowTimeStamp := 0
    pmState := pmState0
    pmSyslinkInfo := ⟨false, false⟩
    batteryLevel := 0
    pmStateOld := .battery
    tickCount := 0
    batteryInfoPrinted := false
    lastBatterySendTick := 0
    canFlyCalls := []
    soundCalls := []
    chargeLevelCalls := []
    shutdownCalls := 0
    sentBatteryInfo := [] }

/-- A sample configuration.  The constants are not among the sources; these values
(5000-tick timeouts, 1000-tick report interval) only serve where a statement is evaluated
at a concrete input. -/
def PmConfig.sample : PmConfig :=
  { PM_BAT_LOW_VOLTAGE := 3.2
    PM_BAT_CRITICAL_LOW_VOLTAGE := 3.0
    PM_BAT_LOW_TIMEOUT := 5000
    PM_BAT_CRITICAL_LOW_TIMEOUT := 5000
    PM_SYSTEM_SHUTDOWN_TIMEOUT := 300000
    batteryInfoSendTicks := 1000 }

/-- The battery level rule in the words of the specification: 0 below the first
breakpoint, 90 at or above the last, otherwise ten times the smallest index whose
breakpoint is at least the voltage, minus 10 if that breakpoint is strictly greater. -/
def specLevelRule (voltage : ℚ) : Nat :=
  if voltage < bat671723HS25C.getD 0 0 then 0
  else if voltage ≥ bat671723HS25C.getD 9 0 then 90
  else
    let i := bat671723HS25C.findIdx fun b => decide (b ≥ voltage)
    if bat671723HS25C.getD i 0 > voltage then i * 10 - 10 else i * 10

/-! ## config_receiver.c: the name tables of the diagnostics -/

/-- Number of entries of `axis_names` ("Roll", "Pitch", "Yaw"). -/
def axis_names_count : Nat := 3

/-- Number of entries of `loop_names`. -/
def loop_names_count : Nat := 2

/-- Whether the table lookups a diagnostic entry records (`loop_names[loopIdx]`,
`axis_names[axisIdx]`) stay inside the two tables. -/
def CfgLog.indexInBounds : CfgLog → Bool
  | .pidParams loopIdx axisIdx _ _ _ =>
    decide (loopIdx < loop_names_count) && decide (axisIdx < axis_names_count)
  | .pidApplied loopIdx axisIdx _ _ _ =>
    decide (loopIdx < loop_names_count) && decide (axisIdx < axis_names_count)
  | _ => true

/-! ## wifi_esp32.c: receive indices, transmit path -/

/-- The index `len - 1` of the read `cksum = inPacket.data[len - 1]`, as the `int` the code
computes. -/
def rxCksumIndex (len : Int) : Int := len - 1

/-- The second argument of `calculate_cksum(inPacket.data, len - 1)` after its conversion to
the 32-bit `size_t`: the number of bytes the checksum loop reads. -/
def rxCksumRange (len : Int) : Nat := Int.toNat ((len - 1) % 2 ^ 32)

/-- The receive loop over the datagrams of a list, first datagram first. -/
def rxRun (W : Nat) (s : WifiState) : List (List Nat) → Option WifiState
  | [] => some s
  | d :: ds => (udp_server_rx_task W s d).bind fun s' => rxRun W s' ds

/-- The conditions under which one receive pass sets `isUDPConnected`: the datagram passes
the length gate and is either a config frame that `configReceiverProcess` accepts (first
byte 0xAA, at least two bytes left after the last one is split off) or a control frame
whose last byte is the checksum of the bytes before it, fewer than 64 of them. -/
def rxAccepts (W : Nat) (d : List Nat) : Bool :=
  decide ((d.length : Int) ≤ (W : Int) - 4) && decide (1 ≤ d.length) &&
    (if d.getD 0 0 = 0xAA then decide (2 ≤ d.length - 1)
     else decide (d.getD (d.length - 1) 0 = (d.take (d.length - 1)).sum % 256 ∧
       d.length - 1 < 64))

/-- `UDP_SERVER_BUFSIZE`, the size of `tx_buffer`. -/
def UDP_SERVER_BUFSIZE : Nat := 128

/-- The statics of the transmit task.  `sendtoCalls` lists the datagrams handed to
`sendto`, oldest first. -/
structure TxState where
  outPacket : UDPPacket
  tx_buffer : List Nat
  sendtoCalls : List (List Nat)
deriving DecidableEq, Repr

/-- The array store `a[i] = v`; `none` when `i` is outside the array. -/
def storeByte (a : List Nat) (i v : Nat) : Option (List Nat) :=
  if i < a.length then some (a.set i v) else none

/-- One pass of the loop of `udp_server_tx_task`.  `received` is what
`xQueueReceive(udpDataTx, &outPacket, 5)` delivered (`none` on a timeout) and
`isUDPConnected` the flag as the condition reads it.  The result is `none` when a copy or
store leaves `outPacket.data` or `tx_buffer`. -/
def udp_server_tx_task (isUDPInit isUDPConnected : Bool) (t : TxState)
    (received : Option UDPPacket) : Option TxState :=
  if isUDPInit = false then some t
  else
    match received with
    | none => some t
    | some pkt =>
      let t := { t with outPacket := pkt }
      if isUDPConnected then
        if t.outPacket.size ≤ t.outPacket.data.length ∧
            t.outPacket.size ≤ t.tx_buffer.length then
          (storeByte (memcpy t.tx_buffer t.outPacket.data t.outPacket.size) t.outPacket.size
              (calculate_cksum (memcpy t.tx_buffer t.outPacket.data t.outPacket.size)
                t.outPacket.size)).bind fun buf =>
            (storeByte buf (t.outPacket.size + 1) 0).map fun buf =>
              { t with
                tx_buffer := buf
                sendtoCalls := t.sendtoCalls ++ [buf.take (t.outPacket.size + 1)] }
        else none
      else some t

/-! ## pm_esplane.c: the battery status frame -/

/-- Modelled from the spec: the macro `CRTP_HEADER` of crtp.h, which is not among the
sources; the spec gives `header = (port << 4) | channel`, kept to one byte. -/
def CRTP_HEADER (port channel : Nat) : Nat := ((port <<< 4) ||| channel) % 256

/-- `CRTP_PORT_PLATFORM`, 0x0D by the comments of `pmSendBatteryInfo`. -/
def CRTP_PORT_PLATFORM : Nat := 0x0D

/-- `BATTERY_INFO_CHANNEL`. -/
def BATTERY_INFO_CHANNEL : Nat := 0

/-- The bytes `memcpy` copies from an `n`-byte object holding the unsigned value `x`, on the
little-endian target: least significant byte first. -/
def leBytes (n x : Nat) : List Nat :=
  (List.range n).map fun k => (x / 256 ^ k) % 256

/-- Little-endian 16-bit load from a byte array at offset `i`. -/
def le16 (data : List Nat) (i : Nat) : Nat :=
  data.getD i 0 + 256 * data.getD (i + 1) 0

/-- How two values of pm_esplane.c are represented in memory, which the sources do not
fix: the 32-bit pattern of the `float` holding a voltage and the value of each `PMStates`
enumerator. -/
structure PmWire where
  f32bits : ℚ → Nat
  stateCode : PMStates → Nat

/-- The send buffer `pmSendBatteryInfo` fills from the values recorded in a `BatteryInfo`,
and the `dataSize` it hands to `wifiSendData`. -/
def sendBufferOf (w : PmWire) (b : BatteryInfo) : Nat × List Nat :=
  let dataSize := 0
  let sendBuffer : List Nat := [CRTP_HEADER CRTP_PORT_PLATFORM BATTERY_INFO_CHANNEL]
  let dataSize := dataSize + 1
  let sendBuffer := sendBuffer ++ leBytes 4 (w.f32bits b.vbat)
  let dataSize := dataSize + 4
  let sendBuffer := sendBuffer ++ leBytes 2 b.vbatMV
  let dataSize := dataSize + 2
  let sendBuffer := sendBuffer ++ [b.level % 256]
  let dataSize := dataSize + 1
  let sendBuffer := sendBuffer ++ [w.stateCode b.state % 256]
  let dataSize := dataSize + 1
  (dataSize, sendBuffer)

/-- The `BatteryInfo` that `pmSendBatteryInfo` reads from the statics. -/
def batteryInfoOf (s : PmState) : BatteryInfo :=
  { vbat := s.batteryVoltage, vbatMV := s.batteryVoltageMV,
    level := s.batteryLevel, state := s.pmState }

/-- A sample representation that knows the pattern of one float, 3.8f = 0x40733333, and
numbers the states in the order battery, charging, charged, lowPower.  It only serves where
a statement is evaluated at a concrete input. -/
def PmWire.sample : PmWire :=
  { f32bits := fun v => if v = 3.8 then 0x40733333 else 0
    stateCode := fun st =>
      match st with
      | .battery => 0
      | .charging => 1
      | .charged => 2
      | .lowPower => 3 }

/-- A sample battery state: 3.8 V, 3800 mV, level 20, charging.  It only serves where a
statement is evaluated at a concrete input. -/
def PmState.sampleCharging : PmState :=
  { PmState.initial PMStates.charging with
    batteryVoltage := 3.8, batteryVoltageMV := 3800, batteryLevel := 20 }

/-! ## pm_esplane.c: the table reads of the breakpoint search -/

/-- The table indices the loop `while (voltage > bat671723HS25C[charge]) charge++` reads,
in order, when entered with the given `charge`: one read per evaluation of the loop
condition, each read but the last followed by one increment.  An index of 10 or more in the
list is a read past the table, after which the list ends. -/
def chargeSearchReads (voltage : ℚ) (charge : Nat) : List Nat :=
  if h : charge < bat671723HS25C.length then
    if voltage > bat671723HS25C[charge] then charge :: chargeSearchReads voltage (charge + 1)
    else [charge]
  else [charge]
termination_by bat671723HS25C.length - charge

/-- The table indices `pmBatteryChargeFromVoltage` reads, in order: index 0 for the first
guard, index 9 for the second, then those of the search loop. -/
def pmBatteryChargeReads (voltage : ℚ) : List Nat :=
  if voltage < bat671723HS25C.getD 0 0 then [0]
  else if voltage > bat671723HS25C.getD 9 0 then [0, 9]
  else [0, 9] ++ chargeSearchReads voltage 0

/-! ## The receive path (wifi_esp32.c, config_receiver.c) -/

/-- The `unsigned char` running sum equals the sum of the bytes modulo 256. -/
theorem cksum_foldl (l : List Nat) (a : Nat) :
    l.foldl (fun cksum c => (cksum + c) % 256) (a % 256) = (a + l.sum) % 256 := by
  induction l generalizing a with
  | nil => simp
  | cons c t ih =>
    simp only [List.foldl_cons, List.sum_cons]
    rw [Nat.mod_add_mod, ih, Nat.add_assoc]

/-- `calculate_cksum` over a prefix of the buffer is the sum of that prefix modulo 256. -/
theorem calculate_cksum_append (l r : List Nat) :
    calculate_cksum (l ++ r) l.length = l.sum % 256 := by
  have h := cksum_foldl l 0
  simpa [calculate_cksum] using h

/-- The checksum byte of `frame` is what `calculate_cksum` returns on header and payload,
as `udp_server_tx_task` computes it. -/
theorem frame_eq_calculate_cksum (h : Nat) (P : List Nat) :
    frame h P = (h :: P) ++ [calculate_cksum (h :: P) (h :: P).length] := by
  have e := calculate_cksum_append (h :: P) []
  rw [List.append_nil] at e
  rw [e]
  simp [frame]

/-- The receive pass on a non-empty datagram `body ++ [ck]` that passes the length gate:
the last byte is split off, the rest is classified by its first byte. -/
theorem udp_server_rx_task_eval (W : Nat) (s : WifiState) (body : List Nat) (ck : Nat)
    (hW : body.length + 5 ≤ W) :
    udp_server_rx_task W s (body ++ [ck]) =
      if (body ++ [ck]).getD 0 0 = 0xAA then
        if (configReceiverProcess (some (rxData s body ck)) body.length s.cfg).1 then
          some { s with
            inPacket := ⟨body.length, rxData s body ck⟩
            cfg := (configReceiverProcess (some (rxData s body ck)) body.length s.cfg).2
            isUDPConnected := true }
        else
          some { s with
            inPacket := ⟨body.length, rxData s body ck⟩
            cfg := (configReceiverProcess (some (rxData s body ck)) body.length s.cfg).2 }
      else if ck = body.sum % 256 ∧ body.length < 64 then
        some { s with
          inPacket := ⟨body.length, rxData s body ck⟩
          udpDataRx := s.udpDataRx ++ [⟨body.length, rxData s body ck⟩]
          isUDPConnected := true }
      else
        some { s with inPacket := ⟨body.length, rxData s body ck⟩ } := by
  have hdata : memcpy s.inPacket.data (body ++ [ck]) (body ++ [ck]).length = rxData s body ck := by
    have h : (body ++ [ck]).take (body.length + 1) = body ++ [ck] :=
      List.take_of_length_le (by simp)
    simp [memcpy, rxData, h]
  have h0 : (rxData s body ck).getD 0 0 = (body ++ [ck]).getD 0 0 := by
    cases body <;> simp [rxData]
  have hlast : (rxData s body ck).getD ((body ++ [ck]).length - 1) 0 = ck := by
    simp [rxData, List.getD_eq_getElem?_getD, List.getElem?_append_right]
    rw [List.getElem_append_right (by simp)]
    simp
  have hsum : calculate_cksum (rxData s body ck) ((body ++ [ck]).length - 1) = body.sum % 256 := by
    simpa [rxData] using calculate_cksum_append body ([ck] ++ s.inPacket.data.drop (body.length + 1))
  have hgate : ¬ (((body ++ [ck]).length : Int) > (W : Int) - 4) := by
    simp only [List.length_append, List.length_singleton]; push_cast; omega
  have hne : ¬ ((body ++ [ck]).length = 0) := by simp
  unfold udp_server_rx_task
  simp only [hgate, hne, if_false, hdata, h0, hlast, hsum]
  simp

/-- A datagram longer than `WIFI_RX_TX_PACKET_SIZE - 4` changes nothing. -/
theorem udp_server_rx_task_gate (W : Nat) (s : WifiState) (rx : List Nat)
    (hW : W < rx.length + 4) : udp_server_rx_task W s rx = some s := by
  have hgate : ((rx.length : Int) > (W : Int) - 4) := by omega
  unfold udp_server_rx_task
  simp only [hgate, if_true]

/-- A datagram that does not start with 0xAA and whose last byte is not the checksum of
the bytes before it is dropped. -/
theorem rx_bad_cksum_dropped (W : Nat) (s : WifiState) (body : List Nat) (ck : Nat)
    (h0 : (body ++ [ck]).getD 0 0 ≠ 0xAA) (hck : ck ≠ body.sum % 256) :
    ∃ s', udp_server_rx_task W s (body ++ [ck]) = some s' ∧ s'.udpDataRx = s.udpDataRx ∧
      s'.isUDPConnected = s.isUDPConnected ∧ s'.cfg = s.cfg := by
  by_cases hW : body.length + 5 ≤ W
  · rw [udp_server_rx_task_eval W s body ck hW, if_neg h0, if_neg (fun h => hck h.1)]
    exact ⟨_, rfl, rfl, rfl, rfl⟩
  · exact ⟨s, udp_server_rx_task_gate W s _ (by simp; omega), rfl, rfl, rfl⟩

/-- A non-empty byte list is its first `length - 1` bytes followed by its last byte. -/
theorem list_concat_of_length_pos (rx : List Nat) (hlen : 1 ≤ rx.length) :
    rx = rx.take (rx.length - 1) ++ [rx.getD (rx.length - 1) 0] := by
  rcases List.eq_nil_or_concat rx with h | ⟨body, ck, rfl⟩
  · subst h; simp at hlen
  · simp [List.getD_eq_getElem?_getD]

/-- C1 (checksum symmetry, as amended): for every header byte `h` other than the config
marker 0xAA and every payload `P` of at most 62 bytes whose datagram passes the length gate
(`|P| + 2 ≤ WIFI_RX_TX_PACKET_SIZE - 4`), the datagram `h ‖ P ‖ C` with
`C = (h + sum P) mod 256` is handed to the inbound queue as a packet of size `1 + |P|`
whose first `size` data bytes are exactly `h ‖ P`, and the link is marked connected. -/
theorem C1_checksum_symmetry (W : Nat) (s : WifiState) (h : Nat) (P : List Nat)
    (hAA : h ≠ 0xAA) (hlen : P.length ≤ 62) (hW : P.length + 6 ≤ W) :
    ∃ pkt : UDPPacket,
      udp_server_rx_task W s (frame h P) =
        some { s with inPacket := pkt, udpDataRx := s.udpDataRx ++ [pkt], isUDPConnected := true } ∧
      pkt.size = 1 + P.length ∧ pkt.data.take pkt.size = h :: P := by
  refine ⟨⟨(h :: P).length, rxData s (h :: P) ((h + P.sum) % 256)⟩, ?_, ?_, ?_⟩
  · have e : frame h P = (h :: P) ++ [(h + P.sum) % 256] := by simp [frame]
    rw [e, udp_server_rx_task_eval W s (h :: P) _ (by simp; omega)]
    have hl : P.length + 1 < 64 := by omega
    simp [hAA, hl]
  · simp; omega
  · simp [rxData]

/-- C1 fails as stated at the header byte 0xAA: the correctly framed datagram
`0xAA, 1, 2, 3, C` is never handed to the inbound queue, whatever the packet size constant
and the state (it is taken by the config path). -/
theorem C1_counterexample :
    ¬ ∃ (W : Nat) (s s' : WifiState),
      udp_server_rx_task W s (frame 0xAA [1, 2, 3]) = some s' ∧ s'.udpDataRx ≠ s.udpDataRx := by
  rintro ⟨W, s, s', h, hne⟩
  apply hne
  by_cases hW : 4 + 5 ≤ W
  · have e : frame 0xAA [1, 2, 3] = [0xAA, 1, 2, 3] ++ [176] := by decide
    rw [e, udp_server_rx_task_eval W s [0xAA, 1, 2, 3] 176 hW] at h
    simp at h
    split at h <;> (simp at h; subst h; rfl)
  · rw [udp_server_rx_task_gate W s _ (by simp [frame]; omega)] at h
    simp at h; subst h; rfl

/-- What `configReceiverProcess` does with the received bytes `0xAA, c, P` (the trailing
byte already split off): it processes the packet `(c, |P|, P)`. -/
theorem configReceiverProcess_frame (s : WifiState) (c : Nat) (P : List Nat) (g : Nat)
    (hlen : P.length ≤ 62) :
    configReceiverProcess (some (rxData s (0xAA :: c :: P) g)) (0xAA :: c :: P).length s.cfg =
      (true, configReceiverPrint (some ⟨c, P.length, P⟩) s.cfg) := by
  have h2 : ¬ (62 < P.length) := by omega
  have h3 : P.length % 256 = P.length := Nat.mod_eq_of_lt (by omega)
  simp [configReceiverProcess, rxData, h2, h3]

/-- C1 at a concrete input: header 0x30, payload 1, 2, 3, packet size constant 64. -/
theorem C1_witness :
    (0x30 ≠ 0xAA ∧ [1, 2, 3].length ≤ 62 ∧ [1, 2, 3].length + 6 ≤ 64) ∧
    ∃ pkt : UDPPacket,
      udp_server_rx_task 64 (WifiState.init 64 PidBank.zero) (frame 0x30 [1, 2, 3]) =
        some { WifiState.init 64 PidBank.zero with
          inPacket := pkt, udpDataRx := [] ++ [pkt], isUDPConnected := true } ∧
      pkt.size = 1 + 3 ∧ pkt.data.take pkt.size = [0x30, 1, 2, 3] :=
  ⟨by decide, C1_checksum_symmetry 64 (WifiState.init 64 PidBank.zero) 0x30 [1, 2, 3]
    (by decide) (by decide) (by decide)⟩

/-- C2 (checksum rejection): every received datagram of length at least 1 whose first byte
is not 0xAA and whose last byte differs from the modulo-256 sum of the bytes before it is
dropped: nothing is sent to the inbound queue, `isUDPConnected` keeps its value and the
config processor is not touched. -/
theorem C2_checksum_rejection (W : Nat) (s : WifiState) (rx : List Nat)
    (hlen : 1 ≤ rx.length) (h0 : rx.getD 0 0 ≠ 0xAA)
    (hck : rx.getD (rx.length - 1) 0 ≠ (rx.take (rx.length - 1)).sum % 256) :
    ∃ s', udp_server_rx_task W s rx = some s' ∧ s'.udpDataRx = s.udpDataRx ∧
      s'.isUDPConnected = s.isUDPConnected ∧ s'.cfg = s.cfg := by
  rw [list_concat_of_length_pos rx hlen] at h0 ⊢
  exact rx_bad_cksum_dropped W s _ _ h0 hck

/-- C2 at a concrete input: the frame 0x30, 1, 2, 3 with its checksum 0x36 changed to
0x37 (bit 0 flipped). -/
theorem C2_witness :
    (1 ≤ [0x30, 1, 2, 3, 0x37].length ∧ [0x30, 1, 2, 3, 0x37].getD 0 0 ≠ 0xAA ∧
      [0x30, 1, 2, 3, 0x37].getD ([0x30, 1, 2, 3, 0x37].length - 1) 0 ≠
        ([0x30, 1, 2, 3, 0x37].take ([0x30, 1, 2, 3, 0x37].length - 1)).sum % 256) ∧
    ∃ s', udp_server_rx_task 64 (WifiState.init 64 PidBank.zero) [0x30, 1, 2, 3, 0x37] = some s' ∧
      s'.udpDataRx = [] ∧ s'.isUDPConnected = false ∧
      s'.cfg = (WifiState.init 64 PidBank.zero).cfg :=
  ⟨by decide, C2_checksum_rejection 64 (WifiState.init 64 PidBank.zero) [0x30, 1, 2, 3, 0x37]
    (by decide) (by decide) (by decide)⟩

/-- The particular case named in C2: a correctly framed datagram with bit `k` of its
checksum byte flipped is dropped. -/
theorem flipped_checksum_rejected (W : Nat) (s : WifiState) (h : Nat) (P : List Nat) (k : Nat)
    (hAA : h ≠ 0xAA) :
    ∃ s', udp_server_rx_task W s (h :: P ++ [((h + P.sum) % 256) ^^^ 2 ^ k]) = some s' ∧
      s'.udpDataRx = s.udpDataRx ∧ s'.isUDPConnected = s.isUDPConnected ∧ s'.cfg = s.cfg := by
  have e : h :: P ++ [((h + P.sum) % 256) ^^^ 2 ^ k] =
      (h :: P) ++ [((h + P.sum) % 256) ^^^ 2 ^ k] := by simp
  rw [e]
  apply rx_bad_cksum_dropped
  · simpa using hAA
  · intro hx
    have hx' : ((h + P.sum) % 256) ^^^ 2 ^ k = ((h + P.sum) % 256) ^^^ 0 := by
      simpa using hx
    have := Nat.xor_right_injective hx'
    exact absurd this (by positivity)

/-- C3 (config bypass, as amended): for every command byte `c` (so for each of the eight
defined ones), every payload `P` of at most 62 bytes and every trailing byte `g`, the
datagram `0xAA ‖ c ‖ P ‖ g` that passes the length gate
(`|P| + 3 ≤ WIFI_RX_TX_PACKET_SIZE - 4`) is processed by the config command processor as
the packet with `cmd_type = c`, `data_len = |P|` and data `P`, whatever the value of `g`;
the link is marked connected and nothing is queued. -/
theorem C3_config_bypass (W : Nat) (s : WifiState) (c : Nat) (P : List Nat) (g : Nat)
    (hlen : P.length ≤ 62) (hW : P.length + 7 ≤ W) :
    ∃ pkt : UDPPacket,
      udp_server_rx_task W s (0xAA :: c :: P ++ [g]) =
        some { s with
          inPacket := pkt
          cfg := configReceiverPrint (some ⟨c, P.length, P⟩) s.cfg
          isUDPConnected := true } := by
  refine ⟨⟨(0xAA :: c :: P).length, rxData s (0xAA :: c :: P) g⟩, ?_⟩
  have e : 0xAA :: c :: P ++ [g] = (0xAA :: c :: P) ++ [g] := by simp
  rw [e, udp_server_rx_task_eval W s (0xAA :: c :: P) g (by simp; omega),
    configReceiverProcess_frame s c P g hlen]
  simp

/-- C3 fails as stated for a frame that is not followed by a trailing byte: after
receiving `0xAA, 0x01, 0x41` the config processor has never processed the packet
`(0x01, 1, [0x41])`; the last payload byte is taken for the trailing byte. -/
theorem C3_counterexample :
    ¬ ∃ (W : Nat) (s s' : WifiState),
      udp_server_rx_task W s [0xAA, 0x01, 0x41] = some s' ∧
        s'.cfg = configReceiverPrint (some ⟨0x01, 1, [0x41]⟩) s.cfg := by
  rintro ⟨W, s, s', h, hcfg⟩
  have hlog : s'.cfg.log = s.cfg.log ++ [.received 1 1, .wifiSsid [0x41]] := by
    rw [hcfg]; simp [configReceiverPrint, CONFIG_CMD_WIFI_SSID]
  by_cases hW : 2 + 5 ≤ W
  · have e : [0xAA, 0x01, 0x41] = [0xAA, 0x01] ++ [0x41] := by decide
    rw [e, udp_server_rx_task_eval W s [0xAA, 0x01] 0x41 hW] at h
    have hp := configReceiverProcess_frame s 1 [] 0x41 (by decide)
    simp only [List.length_cons, List.length_nil] at hp
    simp only [List.length_cons, List.length_nil, hp] at h
    simp at h
    subst h
    simp [configReceiverPrint, CONFIG_CMD_WIFI_SSID] at hlog
  · rw [udp_server_rx_task_gate W s _ (by simp; omega)] at h
    simp at h; subst h
    have := congrArg List.length hlog
    simp at this

/-- C3 at a concrete input: the SSID command 0x01 with payload 0x41, 0x42 and trailing
byte 0x99. -/
theorem C3_witness :
    ([0x41, 0x42].length ≤ 62 ∧ [0x41, 0x42].length + 7 ≤ 64) ∧
    ∃ pkt : UDPPacket,
      udp_server_rx_task 64 (WifiState.init 64 PidBank.zero) (0xAA :: 0x01 :: [0x41, 0x42] ++ [0x99]) =
        some { WifiState.init 64 PidBank.zero with
          inPacket := pkt
          cfg := configReceiverPrint (some ⟨0x01, [0x41, 0x42].length, [0x41, 0x42]⟩)
            (WifiState.init 64 PidBank.zero).cfg
          isUDPConnected := true } :=
  ⟨by decide, C3_config_bypass 64 (WifiState.init 64 PidBank.zero) 0x01 [0x41, 0x42] 0x99
    (by decide) (by decide)⟩

/-! ## Power management (pm_esplane.c) -/

/-- Without wrap-around the `uint32_t` difference is the plain difference. -/
theorem sub32_of_le (a b : Nat) (hab : b ≤ a) (ha : a < 2 ^ 32) : sub32 a b = a - b := by
  unfold sub32
  rw [Nat.mod_eq_of_lt ha, Nat.mod_eq_of_lt (lt_of_le_of_lt hab ha)]
  have e : a + 2 ^ 32 - b = (a - b) + 2 ^ 32 := by omega
  rw [e, Nat.add_mod_right, Nat.mod_eq_of_lt (by omega)]

/-- C4 (charge-state priority): for every pair of flags, tick count and time stamp,
`pmUpdateState` returns charged for (powerGood, not charging), charging for (powerGood,
charging), lowPower for (not powerGood, not charging) when the `uint32_t` difference
`now - batteryLowTimeStamp` exceeds `PM_BAT_LOW_TIMEOUT`, and battery in every other case,
including (not powerGood, charging). -/
theorem C4_charge_state_priority (cfg : PmConfig) (now batteryLowTimeStamp : Nat) :
    pmUpdateState cfg { pgood := true, chg := false } now batteryLowTimeStamp = .charged ∧
    pmUpdateState cfg { pgood := true, chg := true } now batteryLowTimeStamp = .charging ∧
    pmUpdateState cfg { pgood := false, chg := false } now batteryLowTimeStamp =
      (if sub32 now batteryLowTimeStamp > cfg.PM_BAT_LOW_TIMEOUT then .lowPower else .battery) ∧
    pmUpdateState cfg { pgood := false, chg := true } now batteryLowTimeStamp = .battery := by
  refine ⟨rfl, rfl, ?_, rfl⟩
  simp [pmUpdateState]

/-- C5 (low-power timeout boundary, as amended): with powerGood and isCharging both false,
`pmUpdateState` returns battery for every elapsed time up to and including
`PM_BAT_LOW_TIMEOUT` and lowPower for every elapsed time strictly greater. -/
theorem C5_low_power_boundary (cfg : PmConfig) (now batteryLowTimeStamp : Nat) :
    pmUpdateState cfg { pgood := false, chg := false } now batteryLowTimeStamp =
      (if sub32 now batteryLowTimeStamp ≤ cfg.PM_BAT_LOW_TIMEOUT then .battery else .lowPower) := by
  by_cases h : sub32 now batteryLowTimeStamp ≤ cfg.PM_BAT_LOW_TIMEOUT
  · simp [pmUpdateState, h]
  · simp [pmUpdateState, h, not_le.mp h]

/-- C5 fails as stated at an elapsed time equal to the timeout: with a timeout of 5000
ticks, time stamp 0 and tick count 5000 the state is battery, not lowPower. -/
theorem C5_counterexample :
    sub32 5000 0 ≥ PmConfig.sample.PM_BAT_LOW_TIMEOUT ∧
    pmUpdateState PmConfig.sample { pgood := false, chg := false } 5000 0 = .battery := by
  constructor
  · decide
  · decide

/-- The table has ten entries. -/
theorem bat_length : bat671723HS25C.length = 10 := rfl

/-- Reading the table with a default agrees with indexing inside the table. -/
theorem bat_getD (j : Nat) (hj : j < 10) :
    bat671723HS25C.getD j 0 = bat671723HS25C[j] := by
  simp [List.getD_eq_getElem?_getD, List.getElem?_eq_getElem, bat_length, hj]

/-- The breakpoints increase with the index. -/
theorem bat_mono (i j : Nat) (hij : i ≤ j) (hj : j < 10) :
    bat671723HS25C.getD i 0 ≤ bat671723HS25C.getD j 0 := by
  interval_cases j <;> interval_cases i <;> norm_num [bat671723HS25C]

/-- The search loop entered at `c`, when some breakpoint at or after `c` is at least the
voltage, stops inside the table at the smallest such index. -/
theorem chargeSearch_spec (v : ℚ) (n : Nat) : ∀ c : Nat, c + n = 10 →
    (∃ j, c ≤ j ∧ j < 10 ∧ v ≤ bat671723HS25C.getD j 0) →
    ∃ i, chargeSearch v c = some i ∧ c ≤ i ∧ i < 10 ∧ v ≤ bat671723HS25C.getD i 0 ∧
      ∀ j, c ≤ j → j < i → bat671723HS25C.getD j 0 < v := by
  induction n with
  | zero =>
    rintro c hc ⟨j, h1, h2, _⟩
    omega
  | succ n ih =>
    rintro c hc ⟨j, h1, h2, h3⟩
    have hc10 : c < 10 := by omega
    have hcl : c < bat671723HS25C.length := by rw [bat_length]; exact hc10
    rw [chargeSearch, dif_pos hcl]
    by_cases hv : v > bat671723HS25C[c]
    · rw [if_pos hv]
      have hjc : j ≠ c := by
        rintro rfl
        rw [bat_getD j h2] at h3
        exact absurd hv (not_lt.mpr h3)
      obtain ⟨i, e, hi1, hi2, hi3, hi4⟩ := ih (c + 1) (by omega) ⟨j, by omega, h2, h3⟩
      refine ⟨i, e, by omega, hi2, hi3, ?_⟩
      intro k hk1 hk2
      by_cases hkc : k = c
      · subst hkc; rw [bat_getD k hc10]; exact hv
      · exact hi4 k (by omega) hk2
    · rw [if_neg hv]
      refine ⟨c, rfl, le_refl _, hc10, ?_, ?_⟩
      · rw [bat_getD c hc10]; exact not_lt.mp hv
      · intro k hk1 hk2; omega

/-- The table as the list of its entries by index. -/
theorem bat_eq_map : bat671723HS25C = (List.range 10).map fun j => bat671723HS25C.getD j 0 := by
  simp [bat671723HS25C, List.range, List.range.loop]

/-- Among 0..9 exactly `i` indices are below `i`. -/
theorem countP_range_lt (i : Nat) (hi : i ≤ 10) :
    (List.range 10).countP (fun j => decide (j < i)) = i := by
  interval_cases i <;> rfl

/-- If the breakpoints below index `i` are below the voltage and the one at `i` is not,
then `i` breakpoints are strictly below the voltage. -/
theorem bat_countP (v : ℚ) (i : Nat) (hi : i ≤ 10)
    (hlo : ∀ j, j < i → bat671723HS25C.getD j 0 < v)
    (hhi : i < 10 → v ≤ bat671723HS25C.getD i 0) :
    bat671723HS25C.countP (fun b => decide (b < v)) = i := by
  conv_lhs => rw [bat_eq_map]
  rw [List.countP_map, ← countP_range_lt i hi]
  apply List.countP_congr
  intro j hj
  have hj10 : j < 10 := List.mem_range.mp hj
  simp only [Function.comp, decide_eq_true_eq]
  constructor
  · intro h
    by_contra hji
    have hij : i ≤ j := not_lt.mp hji
    have h1 := hhi (by omega)
    have h2 := bat_mono i j hij hj10
    exact absurd h (not_lt.mpr (le_trans h1 h2))
  · exact hlo j

/-- `pmBatteryChargeFromVoltage` always returns, and what it returns in each of its three
branches. -/
theorem pmBatteryChargeFromVoltage_spec (v : ℚ) :
    ∃ i, pmBatteryChargeFromVoltage v = some i ∧ i < 10 ∧
      ((v < 3.00 ∧ i = 0) ∨ (4.10 < v ∧ i = 9) ∨
       (3.00 ≤ v ∧ v ≤ 4.10 ∧ v ≤ bat671723HS25C.getD i 0 ∧
         ∀ j, j < i → bat671723HS25C.getD j 0 < v)) := by
  have e0 : bat671723HS25C.getD 0 0 = 3.00 := by norm_num [bat671723HS25C]
  have e9 : bat671723HS25C.getD 9 0 = 4.10 := by norm_num [bat671723HS25C]
  unfold pmBatteryChargeFromVoltage
  rw [e0, e9]
  by_cases h0 : v < 3.00
  · rw [if_pos h0]
    exact ⟨0, rfl, by norm_num, Or.inl ⟨h0, rfl⟩⟩
  · rw [if_neg h0]
    by_cases h9 : v > 4.10
    · rw [if_pos h9]
      exact ⟨9, rfl, by norm_num, Or.inr (Or.inl ⟨h9, rfl⟩)⟩
    · rw [if_neg h9]
      obtain ⟨i, e, _, hi, hle, hlt⟩ :=
        chargeSearch_spec v 10 0 rfl ⟨9, by norm_num, by norm_num, by rw [e9]; exact not_lt.mp h9⟩
      exact ⟨i, e, hi, Or.inr (Or.inr ⟨not_lt.mp h0, not_lt.mp h9, hle,
        fun j hj => hlt j (Nat.zero_le j) hj⟩)⟩

/-- The charge is the number of breakpoints strictly below the voltage, capped at 9. -/
theorem pmBatteryChargeFromVoltage_count (v : ℚ) :
    pmBatteryChargeFromVoltage v =
      some (min 9 (bat671723HS25C.countP fun b => decide (b < v))) := by
  obtain ⟨i, e, hi, h | h | h⟩ := pmBatteryChargeFromVoltage_spec v
  · obtain ⟨hv, rfl⟩ := h
    have hc := bat_countP v 0 (by norm_num) (fun j hj => absurd hj (Nat.not_lt_zero j))
      (fun _ => by norm_num [bat671723HS25C]; linarith)
    rw [e, hc]; rfl
  · obtain ⟨hv, rfl⟩ := h
    have hc := bat_countP v 10 (le_refl _)
      (fun j hj => lt_of_le_of_lt (bat_mono j 9 (by omega) (by norm_num))
        (by norm_num [bat671723HS25C]; linarith))
      (fun h => absurd h (lt_irrefl _))
    rw [e, hc]; rfl
  · obtain ⟨_, _, hle, hlt⟩ := h
    have hc := bat_countP v i (by omega) hlt (fun _ => hle)
    rw [e, hc, min_eq_right (by omega)]

/-- The level percent is ten times that capped count. -/
theorem batteryLevelOf_count (v : ℚ) :
    batteryLevelOf v = some (10 * min 9 (bat671723HS25C.countP fun b => decide (b < v))) := by
  have h : min 9 (bat671723HS25C.countP fun b => decide (b < v)) ≤ 9 := min_le_left _ _
  rw [batteryLevelOf, pmBatteryChargeFromVoltage_count]
  simp only [Option.map_some']
  congr 1
  omega

/-- The "actions during state" switch always returns and leaves the state, the previous
state, the flight-enable calls and the low time stamp alone. -/
theorem pmDuringStateActions_frame (cfg : PmConfig) (s : PmState) (t : Nat) :
    ∃ s', pmDuringStateActions cfg s t = some s' ∧ s'.pmState = s.pmState ∧
      s'.pmStateOld = s.pmStateOld ∧ s'.canFlyCalls = s.canFlyCalls ∧
      s'.batteryLowTimeStamp = s.batteryLowTimeStamp := by
  unfold pmDuringStateActions
  split
  · exact ⟨_, rfl, rfl, rfl, rfl, rfl⟩
  · simp only [pmBatteryChargeFromVoltage_count, Option.map_some']
    exact ⟨_, rfl, rfl, rfl, rfl, rfl⟩
  · simp only
    split <;> exact ⟨_, rfl, rfl, rfl, rfl, rfl⟩
  · split <;> exact ⟨_, rfl, rfl, rfl, rfl, rfl⟩

/-- `pmSetBatteryVoltage` touches neither the previous state nor the flight-enable calls. -/
theorem pmSetBatteryVoltage_frame (s : PmState) (v : ℚ) :
    (pmSetBatteryVoltage s v).pmStateOld = s.pmStateOld ∧
    (pmSetBatteryVoltage s v).canFlyCalls = s.canFlyCalls := by
  unfold pmSetBatteryVoltage
  simp only
  split <;> split <;> simp

/-- The measuring block always returns and touches neither the previous state nor the
flight-enable calls. -/
theorem pmTaskMeasure_frame (s : PmState) (i : PmTick) :
    ∃ s', pmTaskMeasure s i = some s' ∧ s'.pmStateOld = s.pmStateOld ∧
      s'.canFlyCalls = s.canFlyCalls := by
  unfold pmTaskMeasure
  simp only [batteryLevelOf_count, Option.map_some']
  exact ⟨_, rfl, (pmSetBatteryVoltage_frame _ _).1, (pmSetBatteryVoltage_frame _ _).2⟩

/-- The reporting block touches neither the previous state nor the flight-enable calls. -/
theorem pmTaskReport_frame (cfg : PmConfig) (s : PmState) :
    (pmTaskReport cfg s).pmStateOld = s.pmStateOld ∧
    (pmTaskReport cfg s).canFlyCalls = s.canFlyCalls := by
  unfold pmTaskReport pmSendBatteryInfo
  split <;> simp

/-- The time-stamp block touches neither the previous state nor the flight-enable calls. -/
theorem pmTaskStamps_frame (cfg : PmConfig) (s : PmState) :
    (pmTaskStamps cfg s).pmStateOld = s.pmStateOld ∧
    (pmTaskStamps cfg s).canFlyCalls = s.canFlyCalls := by
  unfold pmTaskStamps
  simp only
  split <;> split <;> simp

/-- The update block: the new state is what `pmUpdateState` returns, it becomes the
previous state, and the flight-enable setter is called once exactly on a change. -/
theorem pmTaskUpdate_spec (cfg : PmConfig) (s : PmState) (i : PmTick) :
    (pmTaskUpdate cfg s i).pmStateOld = (pmTaskUpdate cfg s i).pmState ∧
    (pmTaskUpdate cfg s i).pmState =
      pmUpdateState cfg i.pmSyslinkInfo i.updateTick (pmTaskUpdate cfg s i).batteryLowTimeStamp ∧
    (pmTaskUpdate cfg s i).canFlyCalls = s.canFlyCalls ++
      (if (pmTaskUpdate cfg s i).pmState = s.pmStateOld then []
       else [match (pmTaskUpdate cfg s i).pmState with
             | .charged => false
             | .charging => false
             | .lowPower => true
             | .battery => true]) := by
  unfold pmTaskUpdate
  simp only
  by_cases h : pmUpdateState cfg i.pmSyslinkInfo i.updateTick s.batteryLowTimeStamp = s.pmStateOld
  · simp [h]
  · simp only [ne_eq, h, not_false_eq_true, if_true, if_false]
    unfold pmStateChangeActions
    cases hst : pmUpdateState cfg i.pmSyslinkInfo i.updateTick s.batteryLowTimeStamp <;>
      simp_all

/-- One pass of the loop always returns, with the properties of the update block. -/
theorem pmTaskLoop_spec (cfg : PmConfig) (s : PmState) (i : PmTick) :
    ∃ s', pmTaskLoop cfg s i = some s' ∧
      s'.pmStateOld = s'.pmState ∧
      s'.pmState = pmUpdateState cfg i.pmSyslinkInfo i.updateTick s'.batteryLowTimeStamp ∧
      s'.canFlyCalls = s.canFlyCalls ++
        (if s'.pmState = s.pmStateOld then []
         else [match s'.pmState with
               | .charged => false
               | .charging => false
               | .lowPower => true
               | .battery => true]) := by
  obtain ⟨s1, e1, a1, b1⟩ := pmTaskMeasure_frame s i
  obtain ⟨a2, b2⟩ := pmTaskReport_frame cfg s1
  obtain ⟨a3, b3⟩ := pmTaskStamps_frame cfg (pmTaskReport cfg s1)
  obtain ⟨a4, b4, c4⟩ := pmTaskUpdate_spec cfg (pmTaskStamps cfg (pmTaskReport cfg s1)) i
  obtain ⟨s5, e5, a5, b5, c5, d5⟩ := pmDuringStateActions_frame cfg
    (pmTaskUpdate cfg (pmTaskStamps cfg (pmTaskReport cfg s1)) i) i.inactivityTime
  refine ⟨s5, ?_, ?_, ?_, ?_⟩
  · rw [pmTaskLoop, e1]; exact e5
  · rw [b5, a5]; exact a4
  · rw [a5, d5]; exact b4
  · rw [c5, a5, c4, b3, b2, b1, a3, a2, a1]

/-- Running one more tick is running the loop body once more. -/
theorem pmTaskRun_append (cfg : PmConfig) (ticks : List PmTick) (i : PmTick) :
    ∀ s : PmState, pmTaskRun cfg s (ticks ++ [i]) =
      (pmTaskRun cfg s ticks).bind fun s' => pmTaskLoop cfg s' i := by
  induction ticks with
  | nil =>
    intro s
    simp only [List.nil_append, pmTaskRun, Option.some_bind]
    cases pmTaskLoop cfg s i <;> rfl
  | cons t rest ih =>
    intro s
    simp only [List.cons_append, pmTaskRun]
    cases pmTaskLoop cfg s t with
    | none => rfl
    | some s1 => simp only [Option.some_bind]; exact ih s1

/-- The loop always returns; after at least one pass the previous state is the state. -/
theorem pmTaskRun_spec (cfg : PmConfig) (ticks : List PmTick) :
    ∀ s : PmState, ∃ s', pmTaskRun cfg s ticks = some s' ∧
      (ticks = [] → s'.pmStateOld = s.pmStateOld) ∧
      (ticks ≠ [] → s'.pmStateOld = s'.pmState) := by
  induction ticks using List.reverseRecOn with
  | nil => intro s; exact ⟨s, rfl, fun _ => rfl, fun h => absurd rfl h⟩
  | append_singleton rest i ih =>
    intro s
    obtain ⟨s1, e1, _⟩ := ih s
    obtain ⟨s2, e2, h2, _⟩ := pmTaskLoop_spec cfg s1 i
    refine ⟨s2, ?_, ?_, fun _ => h2⟩
    · rw [pmTaskRun_append, e1]; exact e2
    · intro h; simp at h

/-- C6 (edge-triggered flight enable): for every start state, every list of earlier ticks
and every next tick, `pmTask` returns before and after the next pass; the previous state
seen by that pass is battery on the first pass and the state computed by the pass before
otherwise; and the pass appends to the `systemSetCanFly` calls exactly one call when its
newly computed state differs from the previous state (false for charged and charging,
true for lowPower and battery) and no call when the state is the same. -/
theorem C6_edge_triggered_flight_enable (cfg : PmConfig) (s0 : PmState) (tickCount0 : Nat)
    (ticks : List PmTick) (i : PmTick) :
    ∃ s s', pmTask cfg s0 tickCount0 ticks = some s ∧
      pmTask cfg s0 tickCount0 (ticks ++ [i]) = some s' ∧
      (ticks = [] → s.pmStateOld = PMStates.battery) ∧
      (ticks ≠ [] → s.pmStateOld = s.pmState) ∧
      s'.pmState = pmUpdateState cfg i.pmSyslinkInfo i.updateTick s'.batteryLowTimeStamp ∧
      s'.canFlyCalls = s.canFlyCalls ++
        (if s'.pmState = s.pmStateOld then []
         else [match s'.pmState with
               | .charged => false
               | .charging => false
               | .lowPower => true
               | .battery => true]) := by
  obtain ⟨s, e, ha, hb⟩ := pmTaskRun_spec cfg ticks (pmTaskStart s0 tickCount0)
  obtain ⟨s', e', _, h2, h3⟩ := pmTaskLoop_spec cfg s i
  refine ⟨s, s', e, ?_, fun h => (ha h).trans rfl, hb, h2, h3⟩
  rw [pmTask, pmTaskRun_append, e]; exact e'

/-- C7 (battery level rule, as amended): for every voltage the level percent is ten times
the charge, where the charge is 0 below the first breakpoint 3.00, 9 at or above the last
breakpoint 4.10, and otherwise the smallest index whose breakpoint is at least the
voltage, with no reduction when that breakpoint is strictly greater. -/
theorem C7_battery_level_rule (v : ℚ) :
    ∃ i, pmBatteryChargeFromVoltage v = some i ∧ batteryLevelOf v = some (10 * i) ∧
      (v < 3.00 → i = 0) ∧ (4.10 ≤ v → i = 9) ∧
      (3.00 ≤ v → v < 4.10 →
        i < 10 ∧ v ≤ bat671723HS25C.getD i 0 ∧ ∀ j, j < i → bat671723HS25C.getD j 0 < v) := by
  obtain ⟨i, e, hi, h⟩ := pmBatteryChargeFromVoltage_spec v
  refine ⟨i, e, ?_, ?_, ?_, ?_⟩
  · rw [batteryLevelOf, e]
    simp only [Option.map_some']
    congr 1
    omega
  · intro hv
    rcases h with h | h | h
    · exact h.2
    · linarith [h.1]
    · linarith [h.1]
  · intro hv
    rcases h with h | h | h
    · linarith [h.1]
    · exact h.2
    · obtain ⟨_, h2, h3, h4⟩ := h
      have hv' : v = 4.10 := le_antisymm h2 hv
      by_contra hne
      have hlt : i < 9 := by omega
      have h8 := bat_mono i 8 (by omega) (by norm_num)
      have : bat671723HS25C.getD 8 0 < 4.10 := by norm_num [bat671723HS25C]
      linarith
  · intro h1 h2
    rcases h with h | h | h
    · linarith [h.1]
    · linarith [h.1]
    · exact ⟨hi, h.2.2.1, h.2.2.2⟩

/-- C7 fails as stated at 3.5 V: the smallest index with a breakpoint at least 3.5 is 1
(3.78, strictly greater), so the stated rule gives 10 - 10 = 0, while the code reports 10. -/
theorem C7_counterexample :
    batteryLevelOf 3.5 = some 10 ∧ specLevelRule 3.5 = 0 := by
  constructor
  · rw [batteryLevelOf_count]
    norm_num [bat671723HS25C, List.countP_cons]
  · norm_num [specLevelRule, bat671723HS25C, List.findIdx_cons]

/-- C8 (battery level as a count): for every voltage the level percent is ten times the
number of breakpoints strictly below the voltage, that number capped at 9; hence it is one
of 0, 10, ..., 90. -/
theorem C8_battery_level_count (v : ℚ) :
    batteryLevelOf v = some (10 * min 9 (bat671723HS25C.countP fun b => decide (b < v))) ∧
    ∃ k, k ≤ 9 ∧ batteryLevelOf v = some (10 * k) :=
  ⟨batteryLevelOf_count v, _, min_le_left _ _, batteryLevelOf_count v⟩

/-- C9 (battery level monotonicity): for voltages `v1 ≤ v2` the level of `v1` is at most
the level of `v2`; and the levels of 2.5, 4.10 and 5.0 are 0, 90 and 90. -/
theorem C9_battery_level_monotone (v1 v2 : ℚ) (h : v1 ≤ v2) :
    (∃ l1 l2, batteryLevelOf v1 = some l1 ∧ batteryLevelOf v2 = some l2 ∧ l1 ≤ l2) ∧
    batteryLevelOf 2.5 = some 0 ∧ batteryLevelOf 4.10 = some 90 ∧ batteryLevelOf 5.0 = some 90 := by
  refine ⟨⟨_, _, batteryLevelOf_count v1, batteryLevelOf_count v2, ?_⟩, ?_, ?_, ?_⟩
  · have hc : (bat671723HS25C.countP fun b => decide (b < v1)) ≤
        (bat671723HS25C.countP fun b => decide (b < v2)) := by
      apply List.countP_mono_left
      intro b _ hb
      simp only [decide_eq_true_eq] at hb ⊢
      exact lt_of_lt_of_le hb h
    have := min_le_min (le_refl 9) hc
    omega
  · rw [batteryLevelOf_count]; norm_num [bat671723HS25C, List.countP_cons]
  · rw [batteryLevelOf_count]; norm_num [bat671723HS25C, List.countP_cons]
  · rw [batteryLevelOf_count]; norm_num [bat671723HS25C, List.countP_cons]

/-- C9 at a concrete input: 3.5 V and 3.9 V. -/
theorem C9_witness :
    ((3.5 : ℚ) ≤ 3.9) ∧
    ((∃ l1 l2, batteryLevelOf 3.5 = some l1 ∧ batteryLevelOf 3.9 = some l2 ∧ l1 ≤ l2) ∧
      batteryLevelOf 2.5 = some 0 ∧ batteryLevelOf 4.10 = some 90 ∧
      batteryLevelOf 5.0 = some 90) :=
  ⟨by norm_num, C9_battery_level_monotone 3.5 3.9 (by norm_num)⟩

/-! ## PID parameter update (config_receiver.c) -/

/-- Reading the target just written gives the written object. -/
theorem PidBank.get_set_same (b : PidBank) (t : PidTarget) (p : PidObject) :
    (b.set t p).get t = p := by
  cases t <;> rfl

/-- Writing one target leaves every other target as it was. -/
theorem PidBank.get_set_other (b : PidBank) (t u : PidTarget) (p : PidObject) (h : u ≠ t) :
    (b.set t p).get u = b.get u := by
  cases t <;> cases u <;> first | rfl | exact absurd rfl h

/-- The target selected for an axis in 0, 1, 2. -/
theorem selectTargetPid_of_lt (axis kp ki kd isRateLoop : Nat) (hax : axis < 3) :
    selectTargetPid ⟨axis, kp, ki, kd, isRateLoop⟩ =
      some (if isRateLoop = 0 then
              (if axis = 0 then PidTarget.pidRoll
               else if axis = 1 then PidTarget.pidPitch else PidTarget.pidYaw)
            else
              (if axis = 0 then PidTarget.pidRollRate
               else if axis = 1 then PidTarget.pidPitchRate else PidTarget.pidYawRate)) := by
  unfold selectTargetPid
  interval_cases axis <;> by_cases h : isRateLoop = 0 <;> simp [h]

/-- C10 (PID selector coverage): for every axis in 0, 1, 2, every `isRateLoop` byte and
every (kp, ki, kd), `configReceiverApplyPID` sets the three coefficients of exactly one
target to (kp, ki, kd), namely pidRoll / pidPitch / pidYaw when `isRateLoop = 0` and
pidRollRate / pidPitchRate / pidYawRate otherwise, and leaves the other five targets
unchanged. -/
theorem C10_pid_selector_coverage (s : CfgState) (axis kp ki kd isRateLoop : Nat)
    (hax : axis < 3) :
    ∃ t : PidTarget,
      t = (if isRateLoop = 0 then
              (if axis = 0 then PidTarget.pidRoll
               else if axis = 1 then PidTarget.pidPitch else PidTarget.pidYaw)
            else
              (if axis = 0 then PidTarget.pidRollRate
               else if axis = 1 then PidTarget.pidPitchRate else PidTarget.pidYawRate)) ∧
      ((configReceiverApplyPID (some ⟨axis, kp, ki, kd, isRateLoop⟩) s).pids.get t =
        { kp := kp, ki := ki, kd := kd }) ∧
      ∀ u : PidTarget, u ≠ t →
        (configReceiverApplyPID (some ⟨axis, kp, ki, kd, isRateLoop⟩) s).pids.get u =
          s.pids.get u := by
  refine ⟨_, rfl, ?_, ?_⟩
  · simp only [configReceiverApplyPID, selectTargetPid_of_lt axis kp ki kd isRateLoop hax,
      PidBank.get_set_same]
    rfl
  · intro u hu
    simp only [configReceiverApplyPID, selectTargetPid_of_lt axis kp ki kd isRateLoop hax]
    exact PidBank.get_set_other _ _ _ _ hu

/-- C10 at a concrete input: axis 1, rate loop, coefficients 7, 8, 9. -/
theorem C10_witness :
    (1 < 3) ∧
    ∃ t : PidTarget,
      t = (if 1 = 0 then
              (if 1 = 0 then PidTarget.pidRoll
               else if 1 = 1 then PidTarget.pidPitch else PidTarget.pidYaw)
            else
              (if 1 = 0 then PidTarget.pidRollRate
               else if 1 = 1 then PidTarget.pidPitchRate else PidTarget.pidYawRate)) ∧
      ((configReceiverApplyPID (some ⟨1, 7, 8, 9, 1⟩) ⟨PidBank.zero, [], []⟩).pids.get t =
        { kp := 7, ki := 8, kd := 9 }) ∧
      ∀ u : PidTarget, u ≠ t →
        (configReceiverApplyPID (some ⟨1, 7, 8, 9, 1⟩) ⟨PidBank.zero, [], []⟩).pids.get u =
          PidBank.zero.get u :=
  ⟨by decide, C10_pid_selector_coverage ⟨PidBank.zero, [], []⟩ 1 7 8 9 1 (by decide)⟩


/-! ## Config command processor: selectors, sizes, table indices (config_receiver.c) -/

/-- For an axis outside 0, 1, 2 no target is selected. -/
theorem selectTargetPid_of_ge (axis kp ki kd isRateLoop : Nat) (hax : 3 ≤ axis) :
    selectTargetPid ⟨axis, kp, ki, kd, isRateLoop⟩ = none := by
  unfold selectTargetPid
  obtain ⟨n, rfl⟩ : ∃ n, axis = n + 3 := ⟨axis - 3, by omega⟩
  by_cases h : isRateLoop = 0 <;> simp [h]

/-- C11 (invalid PID axis is a no-op): for every axis value outside 0, 1, 2, every
`isRateLoop` byte and every (kp, ki, kd), `configReceiverApplyPID` returns the state it was
given: the six PID targets keep their coefficients and nothing is added to the console,
so no confirmation message is emitted. -/
theorem C11_invalid_axis_noop (s : CfgState) (axis kp ki kd isRateLoop : Nat)
    (hax : 3 ≤ axis) :
    configReceiverApplyPID (some ⟨axis, kp, ki, kd, isRateLoop⟩) s = s ∧
    (∀ t : PidTarget,
      (configReceiverApplyPID (some ⟨axis, kp, ki, kd, isRateLoop⟩) s).pids.get t =
        s.pids.get t) ∧
    (configReceiverApplyPID (some ⟨axis, kp, ki, kd, isRateLoop⟩) s).console = s.console := by
  have e : configReceiverApplyPID (some ⟨axis, kp, ki, kd, isRateLoop⟩) s = s := by
    simp only [configReceiverApplyPID, selectTargetPid_of_ge axis kp ki kd isRateLoop hax]
  rw [e]
  exact ⟨rfl, fun _ => rfl, rfl⟩

/-- C11 at a concrete input: axis 3, rate loop, coefficients 7, 8, 9. -/
theorem C11_witness :
    (3 ≤ 3) ∧
    (configReceiverApplyPID (some ⟨3, 7, 8, 9, 1⟩) ⟨PidBank.zero, [], []⟩ =
        ⟨PidBank.zero, [], []⟩ ∧
      (∀ t : PidTarget,
        (configReceiverApplyPID (some ⟨3, 7, 8, 9, 1⟩) ⟨PidBank.zero, [], []⟩).pids.get t =
          PidBank.zero.get t) ∧
      (configReceiverApplyPID (some ⟨3, 7, 8, 9, 1⟩) ⟨PidBank.zero, [], []⟩).console = []) :=
  ⟨by decide, C11_invalid_axis_noop ⟨PidBank.zero, [], []⟩ 3 7 8 9 1 (by decide)⟩

/-- The loop-name index is always inside its two-entry table. -/
theorem loopIndex_lt (pid : PIDConfig) : loopIndex pid < loop_names_count := by
  unfold loopIndex loop_names_count
  split <;> omega

/-- What `configReceiverPrint` records for a PidParams packet of at least 14 bytes: the
packet header, then the diagnostic block with the two table lookups, then whatever
`configReceiverApplyPID` does. -/
theorem configReceiverPrint_pid (data_len : Nat) (data : List Nat) (s : CfgState)
    (hlen : 14 ≤ data_len) :
    configReceiverPrint (some ⟨CONFIG_CMD_PID_PARAMS, data_len, data⟩) s =
      configReceiverApplyPID (some (PIDConfig.ofBytes data))
        { s with log := s.log ++
            [.received CONFIG_CMD_PID_PARAMS data_len,
             .pidParams (loopIndex (PIDConfig.ofBytes data)) (PIDConfig.ofBytes data).axis
               (PIDConfig.ofBytes data).kp (PIDConfig.ofBytes data).ki
               (PIDConfig.ofBytes data).kd] } := by
  have h : sizeof_PIDConfig ≤ data_len := hlen
  simp [configReceiverPrint, CONFIG_CMD_PID_PARAMS, CONFIG_CMD_WIFI_SSID,
    CONFIG_CMD_WIFI_PASSWORD, CONFIG_CMD_FLIGHT_PARAMS, sizeof_PIDConfig, hlen]

/-- C12 (code defect): at the PidParams packet of 14 bytes whose axis byte is 3,
`configReceiverPrint` looks up `axis_names[3]` in its three-entry table: the diagnostic
block it records carries the axis index 3, outside the table, although
`configReceiverApplyPID` then ignores the command. -/
theorem C12_axis_name_index_out_of_bounds :
    (configReceiverPrint
        (some ⟨0x04, 14, [3, 0, 0, 0x80, 0x3F, 0, 0, 0, 0, 0, 0, 0, 0, 0]⟩)
        ⟨PidBank.zero, [], []⟩).log =
      [.received 0x04 14, .pidParams 0 3 0x3F800000 0 0] ∧
    CfgLog.indexInBounds (.pidParams 0 3 0x3F800000 0 0) = false ∧
    ¬ (3 < axis_names_count) := by
  refine ⟨?_, by decide, by decide⟩
  decide

/-- C13 (undersized PidParams is ignored): for every config packet with `cmd_type` 0x04
whose `data_len` is below 14, `configReceiverPrint` only records the packet header: it
does not reach the call of `configReceiverApplyPID`, the six PID targets keep their
coefficients and nothing is added to the console. -/
theorem C13_undersized_pid_ignored (data_len : Nat) (data : List Nat) (s : CfgState)
    (hlen : data_len < 14) :
    configReceiverPrint (some ⟨0x04, data_len, data⟩) s =
      { s with log := s.log ++ [.received 0x04 data_len] } ∧
    (∀ t : PidTarget,
      (configReceiverPrint (some ⟨0x04, data_len, data⟩) s).pids.get t = s.pids.get t) ∧
    (configReceiverPrint (some ⟨0x04, data_len, data⟩) s).console = s.console := by
  have h : ¬ (sizeof_PIDConfig ≤ data_len) := by unfold sizeof_PIDConfig; omega
  have e : configReceiverPrint (some ⟨0x04, data_len, data⟩) s =
      { s with log := s.log ++ [.received 0x04 data_len] } := by
    simp [configReceiverPrint, CONFIG_CMD_PID_PARAMS, CONFIG_CMD_WIFI_SSID,
      CONFIG_CMD_WIFI_PASSWORD, CONFIG_CMD_FLIGHT_PARAMS, h]
  rw [e]
  exact ⟨rfl, fun _ => rfl, rfl⟩

/-- C13 at a concrete input: 13 bytes that would select pidRoll if they were read. -/
theorem C13_witness :
    (13 < 14) ∧
    (configReceiverPrint (some ⟨0x04, 13, [0, 1, 2, 3, 4, 5, 6, 7, 8, 9, 10, 11, 12]⟩)
        ⟨PidBank.zero, [], []⟩ =
      { (⟨PidBank.zero, [], []⟩ : CfgState) with log := [] ++ [.received 0x04 13] } ∧
    (∀ t : PidTarget,
      (configReceiverPrint (some ⟨0x04, 13, [0, 1, 2, 3, 4, 5, 6, 7, 8, 9, 10, 11, 12]⟩)
        ⟨PidBank.zero, [], []⟩).pids.get t = PidBank.zero.get t) ∧
    (configReceiverPrint (some ⟨0x04, 13, [0, 1, 2, 3, 4, 5, 6, 7, 8, 9, 10, 11, 12]⟩)
        ⟨PidBank.zero, [], []⟩).console = []) :=
  ⟨by decide, C13_undersized_pid_ignored 13 [0, 1, 2, 3, 4, 5, 6, 7, 8, 9, 10, 11, 12]
    ⟨PidBank.zero, [], []⟩ (by decide)⟩

/-- `configReceiverProcess` returns false, and leaves the state alone, exactly when the
pointer is NULL, `len < 2` or the first byte is not 0xAA. -/
theorem configReceiverProcess_false_iff (data : Option (List Nat)) (len : Nat) (s : CfgState) :
    ((configReceiverProcess data len s).1 = false ↔
      (data = none ∨ len < 2 ∨ ∃ d, data = some d ∧ d.getD 0 0 ≠ 0xAA)) ∧
    ((configReceiverProcess data len s).1 = false → (configReceiverProcess data len s).2 = s) := by
  cases data with
  | none => simp [configReceiverProcess]
  | some d =>
    by_cases h1 : len < 2
    · simp [configReceiverProcess, h1]
    · by_cases h2 : d.getD 0 0 = 0xAA
      · rw [List.getD_eq_getElem?_getD] at h2
        simp [configReceiverProcess, h1, h2]
      · rw [List.getD_eq_getElem?_getD] at h2
        simp [configReceiverProcess, h1, h2]

/-- For lengths whose `len - 2` fits the `uint8_t data_len`, `configReceiverProcess`
processes the packet with `data_len = min (len - 2) 62`. -/
theorem configReceiverProcess_true (d : List Nat) (len : Nat) (s : CfgState)
    (h1 : 2 ≤ len) (h2 : d.getD 0 0 = 0xAA) (h3 : len - 2 < 256) :
    configReceiverProcess (some d) len s =
      (true, configReceiverPrint
        (some ⟨d.getD 1 0, min (len - 2) 62, (d.drop 2).take (min (len - 2) 62)⟩) s) := by
  have e : (len - 2) % 256 = len - 2 := Nat.mod_eq_of_lt h3
  have hn : ¬ (len < 2) := by omega
  rw [List.getD_eq_getElem?_getD] at h2
  by_cases h : 62 < len - 2
  · simp [configReceiverProcess, hn, h2, e, h, min_eq_right (le_of_lt h)]
  · simp [configReceiverProcess, hn, h2, e, h, min_eq_left (not_lt.mp h)]

/-- With `len = 258` the `uint8_t data_len` holds 0, whatever the buffer holds after its
first two bytes. -/
theorem configReceiverProcess_258 (c : Nat) (rest : List Nat) (s : CfgState) :
    configReceiverProcess (some (0xAA :: c :: rest)) 258 s =
      (true, configReceiverPrint (some ⟨c, 0, []⟩) s) := by
  simp [configReceiverProcess]

/-- C18 (code defect): at a 258-byte buffer starting 0xAA, 0x01, `configReceiverProcess`
returns true after processing a packet with `data_len = 0` and no data, because
`len - 2 = 256` is stored in the `uint8_t data_len` before the cap; the stated
`min(len - 2, 62)` is 62. -/
theorem C18_data_len_truncated :
    configReceiverProcess (some (0xAA :: 0x01 :: List.replicate 256 0x41)) 258
        ⟨PidBank.zero, [], []⟩ =
      (true, configReceiverPrint (some ⟨0x01, 0, []⟩) ⟨PidBank.zero, [], []⟩) ∧
    min (258 - 2) 62 = 62 := by
  exact ⟨configReceiverProcess_258 0x01 _ _, by decide⟩


/-! ## Receive indices and the transmit path (wifi_esp32.c) -/

/-- For a datagram of at least one byte (and at most the 127 bytes `recvfrom` is allowed
to store) that passes the length gate, the checksum-byte index and the checksummed range
lie inside the `W`-byte packet buffer. -/
theorem rx_index_valid_of_pos (W : Nat) (len : Int) (h1 : 1 ≤ len) (h2 : len ≤ (W : Int) - 4)
    (h3 : len ≤ 127) :
    0 ≤ rxCksumIndex len ∧ rxCksumIndex len < (W : Int) ∧
      (rxCksumRange len : Int) = len - 1 ∧ (rxCksumRange len : Int) < (W : Int) := by
  have e : (len - 1) % 2 ^ 32 = len - 1 := Int.emod_eq_of_lt (by omega) (by omega)
  unfold rxCksumIndex rxCksumRange
  rw [e, Int.toNat_of_nonneg (by omega)]
  omega

/-- An empty datagram passes the length gate of every packet size of at least 4 and the
pass has no defined result. -/
theorem udp_server_rx_task_empty (W : Nat) (s : WifiState) (hW : 4 ≤ W) :
    udp_server_rx_task W s [] = none := by
  have hgate : ¬ ((([] : List Nat).length : Int) > (W : Int) - 4) := by
    simp only [List.length_nil]; push_cast; omega
  unfold udp_server_rx_task
  simp only [List.length_nil] at hgate ⊢
  rw [if_neg hgate]
  simp

/-- C20 (code defect): an empty datagram (`len = 0`) passes both length checks (`0 < 0`
is false, `0 > 64 - 4` is false), and then the checksum byte is read at index -1 and the
checksum loop is given `(size_t)-1 = 4294967295` bytes to read; the pass has no defined
result. -/
theorem C20_empty_datagram_index :
    ¬ ((0 : Int) < 0) ∧ ¬ ((0 : Int) > ((64 : Nat) : Int) - 4) ∧
    rxCksumIndex 0 = -1 ∧ rxCksumRange 0 = 4294967295 ∧
    udp_server_rx_task 64 (WifiState.init 64 PidBank.zero) [] = none := by
  refine ⟨by decide, by decide, by decide, by decide, ?_⟩
  exact udp_server_rx_task_empty 64 _ (by decide)


/-- Storing at the index just after a prefix replaces the element there. -/
theorem set_after_prefix (P : List Nat) (c v : Nat) (r : List Nat) :
    (P ++ c :: r).set P.length v = P ++ v :: r := by
  induction P with
  | nil => rfl
  | cons a P ih => simp [ih]

/-- Storing one index further replaces the next element. -/
theorem set_after_prefix_succ (P : List Nat) (c d v : Nat) (r : List Nat) :
    (P ++ c :: d :: r).set (P.length + 1) v = P ++ c :: v :: r := by
  induction P with
  | nil => rfl
  | cons a P ih => simp [ih]

/-- The first `length + 1` elements after a prefix are the prefix and one more element. -/
theorem take_after_prefix (P : List Nat) (c : Nat) (r : List Nat) :
    (P ++ c :: r).take (P.length + 1) = P ++ [c] := by
  induction P with
  | nil => rfl
  | cons a P ih => simp [ih]

/-- A list of at least two elements starts with two elements. -/
theorem exists_two_of_length (l : List Nat) (h : 2 ≤ l.length) :
    ∃ c d r, l = c :: d :: r := by
  match l, h with
  | c :: d :: r, _ => exact ⟨c, d, r, rfl⟩

/-- C16 (outbound framing): for every packet of `n = size` data bytes that the transmit
task dequeues while the link is connected (the packet holds its `n` bytes and `n + 2` bytes
fit the 128-byte `tx_buffer`), the datagram handed to `sendto` has length `n + 1` and is the
`n` data bytes unchanged followed by one checksum byte, the sum of those bytes modulo 256,
which is what `calculate_cksum` returns on them. -/
theorem C16_outbound_framing (t : TxState) (pkt : UDPPacket)
    (hdata : pkt.size ≤ pkt.data.length)
    (hbuf : t.tx_buffer.length = UDP_SERVER_BUFSIZE)
    (hfit : pkt.size + 2 ≤ UDP_SERVER_BUFSIZE) :
    ∃ t', udp_server_tx_task true true t (some pkt) = some t' ∧
      t'.sendtoCalls = t.sendtoCalls ++
        [pkt.data.take pkt.size ++ [(pkt.data.take pkt.size).sum % 256]] ∧
      (pkt.data.take pkt.size ++ [(pkt.data.take pkt.size).sum % 256]).length = pkt.size + 1 ∧
      (pkt.data.take pkt.size).sum % 256 = calculate_cksum pkt.data pkt.size := by
  have hPlen : (pkt.data.take pkt.size).length = pkt.size := by
    rw [List.length_take]; exact min_eq_left hdata
  have hrest : 2 ≤ (t.tx_buffer.drop pkt.size).length := by
    rw [List.length_drop, hbuf]; omega
  obtain ⟨c, d, r, hr⟩ := exists_two_of_length _ hrest
  have hsize : pkt.size ≤ t.tx_buffer.length := by rw [hbuf]; omega
  have hbuf0 : memcpy t.tx_buffer pkt.data pkt.size = pkt.data.take pkt.size ++ c :: d :: r := by
    rw [memcpy, hr]
  have hck : calculate_cksum (pkt.data.take pkt.size ++ c :: d :: r) pkt.size =
      (pkt.data.take pkt.size).sum % 256 := by
    have := calculate_cksum_append (pkt.data.take pkt.size) (c :: d :: r)
    rwa [hPlen] at this
  have hck' : calculate_cksum pkt.data pkt.size = (pkt.data.take pkt.size).sum % 256 := by
    have := cksum_foldl (pkt.data.take pkt.size) 0
    simpa [calculate_cksum] using this
  have hlen0 : (pkt.data.take pkt.size ++ c :: d :: r).length = pkt.size + ((r.length + 1) + 1) := by
    rw [List.length_append, hPlen]; rfl
  have hst1 : storeByte (pkt.data.take pkt.size ++ c :: d :: r) pkt.size
      ((pkt.data.take pkt.size).sum % 256) =
        some (pkt.data.take pkt.size ++ ((pkt.data.take pkt.size).sum % 256) :: d :: r) := by
    have h := set_after_prefix (pkt.data.take pkt.size) c ((pkt.data.take pkt.size).sum % 256) (d :: r)
    rw [hPlen] at h
    rw [storeByte, if_pos (by rw [hlen0]; omega), h]
  have hst2 : storeByte
      (pkt.data.take pkt.size ++ ((pkt.data.take pkt.size).sum % 256) :: d :: r) (pkt.size + 1) 0 =
        some (pkt.data.take pkt.size ++ ((pkt.data.take pkt.size).sum % 256) :: 0 :: r) := by
    have h := set_after_prefix_succ (pkt.data.take pkt.size) ((pkt.data.take pkt.size).sum % 256) d 0 r
    rw [hPlen] at h
    rw [storeByte, if_pos (by rw [List.length_append, hPlen]; simp), h]
  have htake : (pkt.data.take pkt.size ++ ((pkt.data.take pkt.size).sum % 256) :: 0 :: r).take
      (pkt.size + 1) = pkt.data.take pkt.size ++ [(pkt.data.take pkt.size).sum % 256] := by
    have h := take_after_prefix (pkt.data.take pkt.size) ((pkt.data.take pkt.size).sum % 256) (0 :: r)
    rwa [hPlen] at h
  refine ⟨(⟨pkt, pkt.data.take pkt.size ++ ((pkt.data.take pkt.size).sum % 256) :: 0 :: r,
      t.sendtoCalls ++ [pkt.data.take pkt.size ++ [(pkt.data.take pkt.size).sum % 256]]⟩ :
        TxState), ?_, ?_, ?_, hck'.symm⟩
  · unfold udp_server_tx_task
    simp only [Bool.true_eq_false, if_false, if_true, hdata, hsize, and_self, hbuf0, hck, hst1,
      Option.some_bind, hst2, Option.map_some', htake]
  · rfl
  · rw [List.length_append, hPlen]; rfl

/-- C16 at a concrete input: a 3-byte packet in a buffer of 64 bytes. -/
theorem C16_witness :
    ((3 : Nat) ≤ ([0x30, 1, 2] ++ List.replicate 61 0).length ∧
      (List.replicate 128 0).length = UDP_SERVER_BUFSIZE ∧ 3 + 2 ≤ UDP_SERVER_BUFSIZE) ∧
    ∃ t', udp_server_tx_task true true ⟨⟨0, []⟩, List.replicate 128 0, []⟩
        (some ⟨3, [0x30, 1, 2] ++ List.replicate 61 0⟩) = some t' ∧
      t'.sendtoCalls = [] ++
        [([0x30, 1, 2] ++ List.replicate 61 0).take 3 ++
          [(([0x30, 1, 2] ++ List.replicate 61 0).take 3).sum % 256]] ∧
      (([0x30, 1, 2] ++ List.replicate 61 0).take 3 ++
          [(([0x30, 1, 2] ++ List.replicate 61 0).take 3).sum % 256]).length = 3 + 1 ∧
      (([0x30, 1, 2] ++ List.replicate 61 0).take 3).sum % 256 =
        calculate_cksum ([0x30, 1, 2] ++ List.replicate 61 0) 3 :=
  ⟨⟨by simp, by simp [UDP_SERVER_BUFSIZE], by decide⟩,
    C16_outbound_framing ⟨⟨0, []⟩, List.replicate 128 0, []⟩
      ⟨3, [0x30, 1, 2] ++ List.replicate 61 0⟩ (by simp) (by simp [UDP_SERVER_BUFSIZE])
      (by decide)⟩


/-- With the flag clear the transmit pass hands nothing to `sendto`, whether the task is
initialised or not and whether or not a packet was dequeued. -/
theorem udp_server_tx_task_not_connected (isUDPInit : Bool) (t : TxState)
    (received : Option UDPPacket) :
    ∃ t', udp_server_tx_task isUDPInit false t received = some t' ∧
      t'.sendtoCalls = t.sendtoCalls := by
  unfold udp_server_tx_task
  cases isUDPInit <;> cases received <;> exact ⟨_, rfl, rfl⟩

/-- One receive pass on a datagram it has a defined result for: the flag afterwards is the
flag before or the acceptance condition of the datagram. -/
theorem udp_server_rx_task_connected (W : Nat) (s : WifiState) (d : List Nat) (hd : d ≠ []) :
    ∃ s', udp_server_rx_task W s d = some s' ∧
      s'.isUDPConnected = (s.isUDPConnected || rxAccepts W d) := by
  by_cases hW : W < d.length + 4
  · refine ⟨s, udp_server_rx_task_gate W s d hW, ?_⟩
    have hg : ¬ ((d.length : Int) ≤ (W : Int) - 4) := by omega
    simp [rxAccepts, hg]
  · rcases List.eq_nil_or_concat d with h | ⟨body, ck, hbc⟩
    · exact absurd h hd
    · rw [List.concat_eq_append] at hbc
      subst hbc
      have hW' : body.length + 5 ≤ W := by
        simp only [List.length_append, List.length_singleton] at hW; omega
      have hg : (((body ++ [ck]).length : Nat) : Int) ≤ (W : Int) - 4 := by
        simp only [List.length_append, List.length_singleton]; push_cast; omega
      have hlast : (body ++ [ck]).getD ((body ++ [ck]).length - 1) 0 = ck := by
        simp [List.getD_eq_getElem?_getD]
      have htake : (body ++ [ck]).take ((body ++ [ck]).length - 1) = body := by simp
      have hlen : (body ++ [ck]).length - 1 = body.length := by simp
      have hpos : 1 ≤ (body ++ [ck]).length := by simp
      rw [udp_server_rx_task_eval W s body ck hW']
      unfold rxAccepts
      rw [hlast, htake, hlen]
      simp only [hg, hpos, decide_True, Bool.true_and]
      by_cases hAA : (body ++ [ck]).getD 0 0 = 0xAA
      · rw [if_pos hAA, if_pos hAA]
        have h0 : (rxData s body ck).getD 0 0 = 0xAA := by
          rw [← hAA]; cases body <;> simp [rxData]
        by_cases h2 : 2 ≤ body.length
        · have hp : (configReceiverProcess (some (rxData s body ck)) body.length s.cfg).1 =
              true := by
            rw [← Bool.not_eq_false]
            intro hf
            rcases (configReceiverProcess_false_iff (some (rxData s body ck)) body.length
              s.cfg).1.1 hf with h | h | ⟨d', hd', hne'⟩
            · exact absurd h (by simp)
            · omega
            · cases hd'; exact hne' h0
          rw [if_pos hp]
          simp [h2]
        · have hp := (configReceiverProcess_false_iff (some (rxData s body ck)) body.length
            s.cfg).1.2 (Or.inr (Or.inl (by omega)))
          rw [if_neg (by rw [hp]; simp)]
          simp [h2]
      · rw [if_neg hAA, if_neg hAA]
        by_cases hc : ck = body.sum % 256 ∧ body.length < 64
        · rw [if_pos hc]; simp [hc]
        · rw [if_neg hc]; simp [hc]

/-- While no datagram is accepted the receive loop keeps the flag as it was. -/
theorem rxRun_not_connected (W : Nat) (ds : List (List Nat)) :
    ∀ s : WifiState, (∀ d ∈ ds, d ≠ []) → (∀ d ∈ ds, rxAccepts W d = false) →
      ∃ s', rxRun W s ds = some s' ∧ s'.isUDPConnected = s.isUDPConnected := by
  induction ds with
  | nil => intro s _ _; exact ⟨s, rfl, rfl⟩
  | cons d ds ih =>
    intro s hne hno
    obtain ⟨s1, e1, h1⟩ := udp_server_rx_task_connected W s d (hne d (List.mem_cons_self _ _))
    rw [hno d (List.mem_cons_self _ _), Bool.or_false] at h1
    obtain ⟨s2, e2, h2⟩ := ih s1 (fun x hx => hne x (List.mem_cons_of_mem _ hx))
      (fun x hx => hno x (List.mem_cons_of_mem _ hx))
    refine ⟨s2, ?_, h2.trans h1⟩
    rw [rxRun, e1]; exact e2

/-- C17 (send is skipped without a peer): in a transmit pass that reads `isUDPConnected`
as false nothing is handed to `sendto`, whether or not a packet was dequeued; and
`isUDPConnected`, false at start-up, is still false after every sequence of received
datagrams none of which is an accepted config frame or a checksum-valid control frame,
while a pass on an accepted datagram sets it. -/
theorem C17_send_skipped_without_peer (W : Nat) (pids : PidBank) (isUDPInit : Bool)
    (t : TxState) (received : Option UDPPacket) (ds : List (List Nat))
    (hne : ∀ d ∈ ds, d ≠ []) (hno : ∀ d ∈ ds, rxAccepts W d = false) :
    (∃ t', udp_server_tx_task isUDPInit false t received = some t' ∧
      t'.sendtoCalls = t.sendtoCalls) ∧
    (WifiState.init W pids).isUDPConnected = false ∧
    (∃ s', rxRun W (WifiState.init W pids) ds = some s' ∧ s'.isUDPConnected = false) ∧
    (∀ (s : WifiState) (d : List Nat), rxAccepts W d = true →
      ∃ s', udp_server_rx_task W s d = some s' ∧ s'.isUDPConnected = true) := by
  refine ⟨udp_server_tx_task_not_connected isUDPInit t received, rfl, ?_, ?_⟩
  · obtain ⟨s', e, h⟩ := rxRun_not_connected W ds (WifiState.init W pids) hne hno
    exact ⟨s', e, h.trans rfl⟩
  · intro s d hacc
    have hd : d ≠ [] := by
      rintro rfl
      simp [rxAccepts] at hacc
    obtain ⟨s', e, h⟩ := udp_server_rx_task_connected W s d hd
    exact ⟨s', e, by rw [h, hacc, Bool.or_true]⟩

/-- C17 at a concrete input: a packet is dequeued, and the only datagram received so far
is a control frame with a wrong checksum. -/
theorem C17_witness :
    ((∀ d ∈ [[0x30, 1, 2, 3, 0x37]], d ≠ []) ∧
      (∀ d ∈ [[0x30, 1, 2, 3, 0x37]], rxAccepts 64 d = false)) ∧
    ((∃ t', udp_server_tx_task true false ⟨⟨0, []⟩, List.replicate 128 0, []⟩
        (some ⟨3, [0x30, 1, 2]⟩) = some t' ∧ t'.sendtoCalls = []) ∧
    (WifiState.init 64 PidBank.zero).isUDPConnected = false ∧
    (∃ s', rxRun 64 (WifiState.init 64 PidBank.zero) [[0x30, 1, 2, 3, 0x37]] = some s' ∧
      s'.isUDPConnected = false) ∧
    (∀ (s : WifiState) (d : List Nat), rxAccepts 64 d = true →
      ∃ s', udp_server_rx_task 64 s d = some s' ∧ s'.isUDPConnected = true)) :=
  ⟨⟨by decide, by decide⟩,
    C17_send_skipped_without_peer 64 PidBank.zero true ⟨⟨0, []⟩, List.replicate 128 0, []⟩
      (some ⟨3, [0x30, 1, 2]⟩) [[0x30, 1, 2, 3, 0x37]] (by decide) (by decide)⟩


/-! ## Voltage extrema, status frame and shutdown (pm_esplane.c) -/

/-- After one call of `pmSetBatteryVoltage`, from any state, the voltage lies between the
recorded minimum and maximum. -/
theorem pmSetBatteryVoltage_extrema (s : PmState) (v : ℚ) :
    (pmSetBatteryVoltage s v).batteryVoltageMin ≤ (pmSetBatteryVoltage s v).batteryVoltage ∧
    (pmSetBatteryVoltage s v).batteryVoltage ≤ (pmSetBatteryVoltage s v).batteryVoltageMax := by
  unfold pmSetBatteryVoltage
  simp only
  split <;> split <;> simp_all

/-- C14 (voltage extrema, as amended): after every non-empty sequence of
`pmSetBatteryVoltage` calls, from the module's initial state or any other,
`batteryVoltageMin ≤ batteryVoltage ≤ batteryVoltageMax`. -/
theorem C14_voltage_extrema (s : PmState) (vs : List ℚ) (hne : vs ≠ []) :
    (vs.foldl pmSetBatteryVoltage s).batteryVoltageMin ≤
      (vs.foldl pmSetBatteryVoltage s).batteryVoltage ∧
    (vs.foldl pmSetBatteryVoltage s).batteryVoltage ≤
      (vs.foldl pmSetBatteryVoltage s).batteryVoltageMax := by
  rcases List.eq_nil_or_concat vs with h | ⟨init, v, hv⟩
  · exact absurd h hne
  · rw [hv, List.concat_eq_append, List.foldl_append]
    exact pmSetBatteryVoltage_extrema _ v

/-- C14 fails as stated in the module's initial state: the recorded minimum 6.0 is above
the voltage 0. -/
theorem C14_counterexample :
    (PmState.initial PMStates.battery).batteryVoltage = 0 ∧
    (PmState.initial PMStates.battery).batteryVoltageMin = 6.0 ∧
    (PmState.initial PMStates.battery).batteryVoltageMax = 0.0 ∧
    ¬ ((PmState.initial PMStates.battery).batteryVoltageMin ≤
      (PmState.initial PMStates.battery).batteryVoltage) := by
  refine ⟨rfl, rfl, rfl, ?_⟩
  norm_num [PmState.initial]

/-- C14 at a concrete input: the call `pmSetBatteryVoltage(3.7)` of `pmInit`, then 3.9 and
3.5, from the initial state. -/
theorem C14_witness :
    (([3.7, 3.9, 3.5] : List ℚ) ≠ []) ∧
    (([3.7, 3.9, 3.5] : List ℚ).foldl pmSetBatteryVoltage
        (PmState.initial PMStates.battery)).batteryVoltageMin ≤
      (([3.7, 3.9, 3.5] : List ℚ).foldl pmSetBatteryVoltage
        (PmState.initial PMStates.battery)).batteryVoltage ∧
    (([3.7, 3.9, 3.5] : List ℚ).foldl pmSetBatteryVoltage
        (PmState.initial PMStates.battery)).batteryVoltage ≤
      (([3.7, 3.9, 3.5] : List ℚ).foldl pmSetBatteryVoltage
        (PmState.initial PMStates.battery)).batteryVoltageMax :=
  ⟨by simp, C14_voltage_extrema (PmState.initial PMStates.battery) [3.7, 3.9, 3.5] (by simp)⟩

/-- Four little-endian bytes of a 32-bit value load back to the value. -/
theorem le32_leBytes (pre : List Nat) (x : Nat) (post : List Nat) (hx : x < 2 ^ 32) :
    le32 (pre ++ leBytes 4 x ++ post) pre.length = x := by
  have e : pre ++ leBytes 4 x ++ post =
      pre ++ (x % 256 :: (x / 256 % 256) :: (x / 65536 % 256) :: (x / 16777216 % 256) :: post) := by
    simp [leBytes, List.range, List.range.loop]
  rw [e, le32]
  simp only [List.getD_eq_getElem?_getD]
  rw [List.getElem?_append_right (le_refl _), List.getElem?_append_right (by omega),
    List.getElem?_append_right (by omega), List.getElem?_append_right (by omega)]
  simp only [Nat.sub_self, Nat.add_sub_cancel_left]
  simp only [List.getElem?_cons_zero, List.getElem?_cons_succ, Option.getD_some]
  omega

/-- Two little-endian bytes of a 16-bit value load back to the value. -/
theorem le16_leBytes (pre : List Nat) (x : Nat) (post : List Nat) (hx : x < 2 ^ 16) :
    le16 (pre ++ leBytes 2 x ++ post) pre.length = x := by
  have e : pre ++ leBytes 2 x ++ post = pre ++ (x % 256 :: (x / 256 % 256) :: post) := by
    simp [leBytes, List.range, List.range.loop]
  rw [e, le16]
  simp only [List.getD_eq_getElem?_getD]
  rw [List.getElem?_append_right (le_refl _), List.getElem?_append_right (by omega)]
  simp only [Nat.sub_self, Nat.add_sub_cancel_left]
  simp only [List.getElem?_cons_zero, List.getElem?_cons_succ, Option.getD_some]
  omega

/-- The send buffer, byte by byte. -/
theorem sendBufferOf_eq (w : PmWire) (b : BatteryInfo) :
    sendBufferOf w b =
      (9, [0xD0] ++ leBytes 4 (w.f32bits b.vbat) ++
        (leBytes 2 b.vbatMV ++ [b.level % 256, w.stateCode b.state % 256])) := by
  have h : CRTP_HEADER CRTP_PORT_PLATFORM BATTERY_INFO_CHANNEL = 0xD0 := by decide
  simp [sendBufferOf, h]

/-- C15 (battery status frame layout and round trip): for every battery state whose fields
fit their C types, `pmSendBatteryInfo` records the values of the statics, and the send
buffer built from them is handed over with `dataSize = 9` and is exactly 9 bytes: byte 0
the header 0xD0 (port 0x0D in the high nibble, channel 0), bytes 1..4 the 32-bit pattern of
`batteryVoltage` least significant byte first, bytes 5..6 `batteryVoltageMV` least
significant byte first, byte 7 `batteryLevel`, byte 8 the code of `pmState`; reading the
frame back at these offsets returns the same pattern, millivolts, level and state code. -/
theorem C15_battery_frame_round_trip (w : PmWire) (s : PmState)
    (hbits : w.f32bits s.batteryVoltage < 2 ^ 32) (hmv : s.batteryVoltageMV < 2 ^ 16)
    (hlevel : s.batteryLevel < 2 ^ 8) (hcode : w.stateCode s.pmState < 2 ^ 8) :
    (pmSendBatteryInfo s).sentBatteryInfo = s.sentBatteryInfo ++ [batteryInfoOf s] ∧
    (sendBufferOf w (batteryInfoOf s)).1 = 9 ∧
    (sendBufferOf w (batteryInfoOf s)).2.length = 9 ∧
    (sendBufferOf w (batteryInfoOf s)).2 =
      [0xD0] ++ leBytes 4 (w.f32bits s.batteryVoltage) ++ leBytes 2 s.batteryVoltageMV ++
        [s.batteryLevel] ++ [w.stateCode s.pmState] ∧
    (sendBufferOf w (batteryInfoOf s)).2.getD 0 0 = (CRTP_PORT_PLATFORM <<< 4) ||| 0 ∧
    le32 (sendBufferOf w (batteryInfoOf s)).2 1 = w.f32bits s.batteryVoltage ∧
    le16 (sendBufferOf w (batteryInfoOf s)).2 5 = s.batteryVoltageMV ∧
    (sendBufferOf w (batteryInfoOf s)).2.getD 7 0 = s.batteryLevel ∧
    (sendBufferOf w (batteryInfoOf s)).2.getD 8 0 = w.stateCode s.pmState := by
  have hl : s.batteryLevel % 256 = s.batteryLevel := Nat.mod_eq_of_lt hlevel
  have hc : w.stateCode s.pmState % 256 = w.stateCode s.pmState := Nat.mod_eq_of_lt hcode
  have e : (sendBufferOf w (batteryInfoOf s)).2 =
      [0xD0] ++ leBytes 4 (w.f32bits s.batteryVoltage) ++
        (leBytes 2 s.batteryVoltageMV ++ [s.batteryLevel, w.stateCode s.pmState]) := by
    rw [sendBufferOf_eq]; simp [batteryInfoOf, hl, hc]
  have e2 : (sendBufferOf w (batteryInfoOf s)).2 =
      ([0xD0] ++ leBytes 4 (w.f32bits s.batteryVoltage)) ++ leBytes 2 s.batteryVoltageMV ++
        [s.batteryLevel, w.stateCode s.pmState] := by
    rw [e]; simp
  have h32 := le32_leBytes [0xD0] (w.f32bits s.batteryVoltage)
    (leBytes 2 s.batteryVoltageMV ++ [s.batteryLevel, w.stateCode s.pmState]) hbits
  have h16 := le16_leBytes ([0xD0] ++ leBytes 4 (w.f32bits s.batteryVoltage))
    s.batteryVoltageMV [s.batteryLevel, w.stateCode s.pmState] hmv
  refine ⟨rfl, ?_, ?_, ?_, ?_, ?_, ?_, ?_, ?_⟩
  · rw [sendBufferOf_eq]
  · rw [e]; simp [leBytes]
  · rw [e]; simp
  · rw [e]; simp [CRTP_PORT_PLATFORM]
  · rw [e]; exact h32
  · rw [e2]; exact h16
  · rw [e]; simp [leBytes, List.range, List.range.loop]
  · rw [e]; simp [leBytes, List.range, List.range.loop]

/-- C15 at a concrete input: 3.8 V (pattern 0x40733333), 3800 mV, level 20, state
charging. -/
theorem C15_witness :
    (PmWire.sample.f32bits PmState.sampleCharging.batteryVoltage < 2 ^ 32 ∧
      PmState.sampleCharging.batteryVoltageMV < 2 ^ 16 ∧
      PmState.sampleCharging.batteryLevel < 2 ^ 8 ∧
      PmWire.sample.stateCode PmState.sampleCharging.pmState < 2 ^ 8) ∧
    ((pmSendBatteryInfo PmState.sampleCharging).sentBatteryInfo =
        PmState.sampleCharging.sentBatteryInfo ++ [batteryInfoOf PmState.sampleCharging] ∧
      (sendBufferOf PmWire.sample (batteryInfoOf PmState.sampleCharging)).1 = 9 ∧
      (sendBufferOf PmWire.sample (batteryInfoOf PmState.sampleCharging)).2.length = 9 ∧
      (sendBufferOf PmWire.sample (batteryInfoOf PmState.sampleCharging)).2 =
        [0xD0] ++ leBytes 4 (PmWire.sample.f32bits PmState.sampleCharging.batteryVoltage) ++
          leBytes 2 PmState.sampleCharging.batteryVoltageMV ++
          [PmState.sampleCharging.batteryLevel] ++
          [PmWire.sample.stateCode PmState.sampleCharging.pmState] ∧
      (sendBufferOf PmWire.sample (batteryInfoOf PmState.sampleCharging)).2.getD 0 0 =
        (CRTP_PORT_PLATFORM <<< 4) ||| 0 ∧
      le32 (sendBufferOf PmWire.sample (batteryInfoOf PmState.sampleCharging)).2 1 =
        PmWire.sample.f32bits PmState.sampleCharging.batteryVoltage ∧
      le16 (sendBufferOf PmWire.sample (batteryInfoOf PmState.sampleCharging)).2 5 =
        PmState.sampleCharging.batteryVoltageMV ∧
      (sendBufferOf PmWire.sample (batteryInfoOf PmState.sampleCharging)).2.getD 7 0 =
        PmState.sampleCharging.batteryLevel ∧
      (sendBufferOf PmWire.sample (batteryInfoOf PmState.sampleCharging)).2.getD 8 0 =
        PmWire.sample.stateCode PmState.sampleCharging.pmState) :=
  have h1 : PmWire.sample.f32bits PmState.sampleCharging.batteryVoltage < 2 ^ 32 := by
    simp [PmWire.sample, PmState.sampleCharging]
  have h2 : PmState.sampleCharging.batteryVoltageMV < 2 ^ 16 := by
    simp [PmState.sampleCharging]
  have h3 : PmState.sampleCharging.batteryLevel < 2 ^ 8 := by
    simp [PmState.sampleCharging]
  have h4 : PmWire.sample.stateCode PmState.sampleCharging.pmState < 2 ^ 8 := by
    simp [PmWire.sample, PmState.sampleCharging, PmState.initial]
  ⟨⟨h1, h2, h3, h4⟩,
    C15_battery_frame_round_trip PmWire.sample PmState.sampleCharging h1 h2 h3 h4⟩

/-- The sample frame, byte by byte. -/
theorem sendBufferOf_sample :
    (sendBufferOf PmWire.sample (batteryInfoOf PmState.sampleCharging)).2 =
      [0xD0, 0x33, 0x33, 0x73, 0x40, 0xD8, 0x0E, 20, 1] := by
  rw [sendBufferOf_eq]
  simp [batteryInfoOf, PmState.sampleCharging, PmState.initial, PmWire.sample, leBytes,
    List.range, List.range.loop]


/-- The "actions during state" switch always returns; it calls `pmSystemShutdown` once
exactly in the two timed-out cases and leaves the state, tick count and critical time
stamp alone. -/
theorem pmDuringStateActions_shutdown (cfg : PmConfig) (s : PmState) (t : Nat) :
    ∃ s', pmDuringStateActions cfg s t = some s' ∧ s'.pmState = s.pmState ∧
      s'.tickCount = s.tickCount ∧
      s'.batteryCriticalLowTimeStamp = s.batteryCriticalLowTimeStamp ∧
      s'.batteryLowTimeStamp = s.batteryLowTimeStamp ∧
      s'.shutdownCalls = s.shutdownCalls +
        (if (s.pmState = PMStates.lowPower ∧
              sub32 s.tickCount s.batteryCriticalLowTimeStamp >
                cfg.PM_BAT_CRITICAL_LOW_TIMEOUT) ∨
            (s.pmState = PMStates.battery ∧ t > cfg.PM_SYSTEM_SHUTDOWN_TIMEOUT)
         then 1 else 0) := by
  unfold pmDuringStateActions
  split
  · rename_i h
    exact ⟨_, rfl, rfl, rfl, rfl, rfl, by simp [h]⟩
  · rename_i h
    simp only [pmBatteryChargeFromVoltage_count, Option.map_some']
    exact ⟨_, rfl, rfl, rfl, rfl, rfl, by simp [h]⟩
  · rename_i h
    simp only
    split
    · rename_i hc
      exact ⟨_, rfl, rfl, rfl, rfl, rfl, by simp [h, hc]⟩
    · rename_i hc
      exact ⟨_, rfl, rfl, rfl, rfl, rfl, by simp [h, hc]⟩
  · rename_i h
    split
    · rename_i hc
      exact ⟨_, rfl, rfl, rfl, rfl, rfl, by simp [h, hc]⟩
    · rename_i hc
      exact ⟨_, rfl, rfl, rfl, rfl, rfl, by simp [h, hc]⟩

/-- The measuring block stores the tick count of the pass and makes no shutdown call. -/
theorem pmTaskMeasure_shutdown (s : PmState) (i : PmTick) :
    ∃ s', pmTaskMeasure s i = some s' ∧ s'.shutdownCalls = s.shutdownCalls ∧
      s'.tickCount = i.tickCount := by
  unfold pmTaskMeasure
  simp only [batteryLevelOf_count, Option.map_some']
  refine ⟨_, rfl, ?_, rfl⟩
  simp only [pmSetBatteryVoltage]
  split <;> split <;> rfl

/-- The reporting block makes no shutdown call and keeps the tick count. -/
theorem pmTaskReport_shutdown (cfg : PmConfig) (s : PmState) :
    (pmTaskReport cfg s).shutdownCalls = s.shutdownCalls ∧
    (pmTaskReport cfg s).tickCount = s.tickCount := by
  unfold pmTaskReport pmSendBatteryInfo
  split <;> simp

/-- The time-stamp block makes no shutdown call and keeps the tick count. -/
theorem pmTaskStamps_shutdown (cfg : PmConfig) (s : PmState) :
    (pmTaskStamps cfg s).shutdownCalls = s.shutdownCalls ∧
    (pmTaskStamps cfg s).tickCount = s.tickCount := by
  unfold pmTaskStamps
  simp only
  split <;> split <;> simp

/-- The update block makes no shutdown call and keeps the tick count. -/
theorem pmTaskUpdate_shutdown (cfg : PmConfig) (s : PmState) (i : PmTick) :
    (pmTaskUpdate cfg s i).shutdownCalls = s.shutdownCalls ∧
    (pmTaskUpdate cfg s i).tickCount = s.tickCount := by
  unfold pmTaskUpdate
  simp only
  split
  · unfold pmStateChangeActions
    split <;> simp
  · simp

/-- C19 (shutdown trigger): every pass of the `pmTask` loop returns, and it calls
`pmSystemShutdown` once exactly when the state it computed is lowPower and the `uint32_t`
difference `tickCount - batteryCriticalLowTimeStamp` exceeds `PM_BAT_CRITICAL_LOW_TIMEOUT`,
or the state is battery and `commanderGetInactivityTime()` exceeds
`PM_SYSTEM_SHUTDOWN_TIMEOUT`; otherwise, in particular while the state is charged or
charging, it makes no such call. -/
theorem C19_shutdown_trigger (cfg : PmConfig) (s : PmState) (i : PmTick) :
    ∃ s', pmTaskLoop cfg s i = some s' ∧
      s'.pmState = pmUpdateState cfg i.pmSyslinkInfo i.updateTick s'.batteryLowTimeStamp ∧
      s'.tickCount = i.tickCount ∧
      s'.shutdownCalls = s.shutdownCalls +
        (if (s'.pmState = PMStates.lowPower ∧
              sub32 s'.tickCount s'.batteryCriticalLowTimeStamp >
                cfg.PM_BAT_CRITICAL_LOW_TIMEOUT) ∨
            (s'.pmState = PMStates.battery ∧
              i.inactivityTime > cfg.PM_SYSTEM_SHUTDOWN_TIMEOUT)
         then 1 else 0) ∧
      ((s'.pmState = PMStates.charged ∨ s'.pmState = PMStates.charging) →
        s'.shutdownCalls = s.shutdownCalls) := by
  obtain ⟨s1, e1, a1, b1⟩ := pmTaskMeasure_shutdown s i
  obtain ⟨a2, b2⟩ := pmTaskReport_shutdown cfg s1
  obtain ⟨a3, b3⟩ := pmTaskStamps_shutdown cfg (pmTaskReport cfg s1)
  obtain ⟨a4, b4⟩ := pmTaskUpdate_shutdown cfg (pmTaskStamps cfg (pmTaskReport cfg s1)) i
  obtain ⟨_, c4, _⟩ := pmTaskUpdate_spec cfg (pmTaskStamps cfg (pmTaskReport cfg s1)) i
  obtain ⟨s5, e5, p5, t5, k5, l5, h5⟩ := pmDuringStateActions_shutdown cfg
    (pmTaskUpdate cfg (pmTaskStamps cfg (pmTaskReport cfg s1)) i) i.inactivityTime
  have hcount : s5.shutdownCalls = s.shutdownCalls +
      (if (s5.pmState = PMStates.lowPower ∧
            sub32 s5.tickCount s5.batteryCriticalLowTimeStamp >
              cfg.PM_BAT_CRITICAL_LOW_TIMEOUT) ∨
          (s5.pmState = PMStates.battery ∧
            i.inactivityTime > cfg.PM_SYSTEM_SHUTDOWN_TIMEOUT)
       then 1 else 0) := by
    rw [h5, p5, t5, k5, a4, a3, a2, a1]
  refine ⟨s5, ?_, ?_, ?_, hcount, ?_⟩
  · rw [pmTaskLoop, e1]; exact e5
  · rw [p5, l5]; exact c4
  · rw [t5, b4, b3, b2, b1]
  · intro hst
    rw [hcount]
    rcases hst with h | h <;> simp [h]


/-! ## Telemetry order and the bounds of the breakpoint search (pm_esplane.c) -/

/-- The measuring block always returns: it stores the measured voltage, its millivolts, its
level and the tick count of the pass, and touches neither the state, nor the frames sent,
nor the time of the last frame. -/
theorem pmTaskMeasure_fields (s : PmState) (i : PmTick) :
    ∃ s' level, pmTaskMeasure s i = some s' ∧
      batteryLevelOf i.extBatteryVoltage = some level ∧
      s'.batteryVoltage = i.extBatteryVoltage ∧
      s'.batteryVoltageMV = toUint16 (i.extBatteryVoltage * 1000) ∧
      s'.batteryLevel = level ∧ s'.tickCount = i.tickCount ∧
      s'.pmState = s.pmState ∧ s'.sentBatteryInfo = s.sentBatteryInfo ∧
      s'.lastBatterySendTick = s.lastBatterySendTick := by
  have hv : ∀ (t : PmState) (v : ℚ),
      (pmSetBatteryVoltage t v).batteryVoltage = v ∧
      (pmSetBatteryVoltage t v).batteryVoltageMV = toUint16 (v * 1000) ∧
      (pmSetBatteryVoltage t v).pmState = t.pmState ∧
      (pmSetBatteryVoltage t v).sentBatteryInfo = t.sentBatteryInfo ∧
      (pmSetBatteryVoltage t v).lastBatterySendTick = t.lastBatterySendTick := by
    intro t v
    unfold pmSetBatteryVoltage
    simp only
    split <;> split <;> simp
  obtain ⟨h1, h2, h3, h4, h5⟩ := hv
    { s with
      extBatteryVoltage := i.extBatteryVoltage
      extBatteryVoltageMV := toUint16 (i.extBatteryVoltage * 1000)
      extBatteryCurrent := i.extBatteryCurrent } i.extBatteryVoltage
  unfold pmTaskMeasure
  simp only [batteryLevelOf_count, Option.map_some']
  refine ⟨_, _, rfl, rfl, h1, h2, ?_, rfl, h3, h4, h5⟩
  simp only [h1]

/-- The reporting block: when the interval has elapsed it appends the frame built from the
statics as they are at that point, otherwise it sends nothing; it never touches the state. -/
theorem pmTaskReport_sent (cfg : PmConfig) (s : PmState) :
    (pmTaskReport cfg s).pmState = s.pmState ∧
    (pmTaskReport cfg s).sentBatteryInfo =
      (if sub32 s.tickCount s.lastBatterySendTick ≥ cfg.batteryInfoSendTicks then
        s.sentBatteryInfo ++ [batteryInfoOf s]
       else s.sentBatteryInfo) := by
  unfold pmTaskReport pmSendBatteryInfo batteryInfoOf
  split <;> simp

/-- The time-stamp block sends nothing. -/
theorem pmTaskStamps_sent (cfg : PmConfig) (s : PmState) :
    (pmTaskStamps cfg s).sentBatteryInfo = s.sentBatteryInfo := by
  unfold pmTaskStamps
  simp only
  split <;> split <;> rfl

/-- The update block sends nothing. -/
theorem pmTaskUpdate_sent (cfg : PmConfig) (s : PmState) (i : PmTick) :
    (pmTaskUpdate cfg s i).sentBatteryInfo = s.sentBatteryInfo := by
  unfold pmTaskUpdate
  simp only
  split
  · unfold pmStateChangeActions
    split <;> rfl
  · rfl

/-- The "actions during state" switch sends nothing. -/
theorem pmDuringStateActions_sent (cfg : PmConfig) (s : PmState) (t : Nat) :
    ∃ s', pmDuringStateActions cfg s t = some s' ∧
      s'.sentBatteryInfo = s.sentBatteryInfo := by
  unfold pmDuringStateActions
  split
  · exact ⟨_, rfl, rfl⟩
  · simp only [pmBatteryChargeFromVoltage_count, Option.map_some']
    exact ⟨_, rfl, rfl⟩
  · simp only
    split <;> exact ⟨_, rfl, rfl⟩
  · split <;> exact ⟨_, rfl, rfl⟩

/-- One pass of the loop and the frame it sends: the pass returns, its new state is what
`pmUpdateState` returns, and the frame, if the interval has elapsed, carries the voltage,
millivolts and level of this pass and the state the pass started with. -/
theorem pmTaskLoop_sent (cfg : PmConfig) (s : PmState) (i : PmTick) :
    ∃ s' level, pmTaskLoop cfg s i = some s' ∧
      batteryLevelOf i.extBatteryVoltage = some level ∧
      s'.pmState = pmUpdateState cfg i.pmSyslinkInfo i.updateTick s'.batteryLowTimeStamp ∧
      s'.sentBatteryInfo =
        (if sub32 i.tickCount s.lastBatterySendTick ≥ cfg.batteryInfoSendTicks then
          s.sentBatteryInfo ++
            [{ vbat := i.extBatteryVoltage
               vbatMV := toUint16 (i.extBatteryVoltage * 1000)
               level := level
               state := s.pmState }]
         else s.sentBatteryInfo) := by
  obtain ⟨s1, level, e1, hl, a1, b1, c1, d1, p1, q1, r1⟩ := pmTaskMeasure_fields s i
  obtain ⟨_, a2⟩ := pmTaskReport_sent cfg s1
  have a3 := pmTaskStamps_sent cfg (pmTaskReport cfg s1)
  have a4 := pmTaskUpdate_sent cfg (pmTaskStamps cfg (pmTaskReport cfg s1)) i
  obtain ⟨s5, e5, a5⟩ := pmDuringStateActions_sent cfg
    (pmTaskUpdate cfg (pmTaskStamps cfg (pmTaskReport cfg s1)) i) i.inactivityTime
  have e5' : pmTaskLoop cfg s i = some s5 := by
    rw [pmTaskLoop, e1]; exact e5
  obtain ⟨s6, e6, _, h6, _⟩ := pmTaskLoop_spec cfg s i
  have h56 : s6 = s5 := by
    rw [e5'] at e6; cases e6; rfl
  subst h56
  refine ⟨s6, level, e5', hl, h6, ?_⟩
  rw [a5, a4, a3, a2, d1, r1, q1]
  unfold batteryInfoOf
  rw [a1, b1, c1, p1]

/-- C21 (telemetry state is one tick stale): for every start state, every list of earlier
ticks and every next tick, `pmTask` returns before and after the next pass, and when that
pass emits a battery frame (the send interval has elapsed) the frame is the one appended to
the frames sent, its voltage, millivolt and level fields are the values measured and
computed in that pass, and its state field is the `pmState` the pass started with: the
initial `pmState` on the first pass, otherwise the state `pmUpdateState` returned in the
pass before; the state computed later in the same pass is not used.  A pass that emits no
frame sends nothing. -/
theorem C21_telemetry_state_stale (cfg : PmConfig) (s0 : PmState) (tickCount0 : Nat)
    (ticks : List PmTick) (i : PmTick) :
    ∃ s s' level, pmTask cfg s0 tickCount0 ticks = some s ∧
      pmTask cfg s0 tickCount0 (ticks ++ [i]) = some s' ∧
      batteryLevelOf i.extBatteryVoltage = some level ∧
      (ticks = [] → s.pmState = s0.pmState) ∧
      (∀ rest j, ticks = rest ++ [j] →
        s.pmState = pmUpdateState cfg j.pmSyslinkInfo j.updateTick s.batteryLowTimeStamp) ∧
      s'.pmState = pmUpdateState cfg i.pmSyslinkInfo i.updateTick s'.batteryLowTimeStamp ∧
      s'.sentBatteryInfo =
        (if sub32 i.tickCount s.lastBatterySendTick ≥ cfg.batteryInfoSendTicks then
          s.sentBatteryInfo ++
            [{ vbat := i.extBatteryVoltage
               vbatMV := toUint16 (i.extBatteryVoltage * 1000)
               level := level
               state := s.pmState }]
         else s.sentBatteryInfo) := by
  obtain ⟨s, e, _, _⟩ := pmTaskRun_spec cfg ticks (pmTaskStart s0 tickCount0)
  obtain ⟨s', level, e', hl, hst, hsent⟩ := pmTaskLoop_sent cfg s i
  refine ⟨s, s', level, e, ?_, hl, ?_, ?_, hst, hsent⟩
  · rw [pmTask, pmTaskRun_append, e]; exact e'
  · intro h
    subst h
    simp only [pmTaskRun, Option.some.injEq] at e
    rw [← e]; rfl
  · intro rest j h
    subst h
    obtain ⟨r, er, _, _⟩ := pmTaskRun_spec cfg rest (pmTaskStart s0 tickCount0)
    obtain ⟨r', er', _, hr', _⟩ := pmTaskLoop_spec cfg r j
    have : pmTaskRun cfg (pmTaskStart s0 tickCount0) (rest ++ [j]) = some r' := by
      rw [pmTaskRun_append, er]; exact er'
    rw [this] at e
    cases e
    exact hr'


/-- The staleness is observable: on a first pass that emits a frame while external power
is good and not charging, the frame carries the initial state battery although the pass
computes charged. -/
theorem telemetry_state_stale_example :
    ∃ s' level,
      pmTask PmConfig.sample (PmState.initial PMStates.battery) 0
        [{ extBatteryVoltage := 3.8, extBatteryCurrent := 0, tickCount := 1000,
           updateTick := 1000, pmSyslinkInfo := { chg := false, pgood := true },
           inactivityTime := 0 }] = some s' ∧
      s'.pmState = PMStates.charged ∧
      s'.sentBatteryInfo =
        [{ vbat := 3.8, vbatMV := toUint16 (3.8 * 1000), level := level,
           state := PMStates.battery }] := by
  obtain ⟨s', level, e, _, hst, hsent⟩ := pmTaskLoop_sent PmConfig.sample
    (pmTaskStart (PmState.initial PMStates.battery) 0)
    { extBatteryVoltage := 3.8, extBatteryCurrent := 0, tickCount := 1000,
      updateTick := 1000, pmSyslinkInfo := { chg := false, pgood := true },
      inactivityTime := 0 }
  refine ⟨s', level, ?_, ?_, ?_⟩
  · rw [pmTask, pmTaskRun, e]; rfl
  · rw [hst]; rfl
  · rw [hsent]
    have h : sub32 1000 0 ≥ PmConfig.sample.batteryInfoSendTicks := by decide
    simp only [pmTaskStart, PmState.initial]
    rw [if_pos h]
    rfl

/-- The search loop entered at `c`, when some breakpoint at or after `c` is at least the
voltage, reads exactly the indices from `c` to the index it returns. -/
theorem chargeSearchReads_spec (v : ℚ) (n : Nat) : ∀ c : Nat, c + n = 10 →
    (∃ j, c ≤ j ∧ j < 10 ∧ v ≤ bat671723HS25C.getD j 0) →
    ∃ i, chargeSearch v c = some i ∧ c ≤ i ∧ i < 10 ∧
      chargeSearchReads v c = (List.range (i + 1 - c)).map fun k => c + k := by
  induction n with
  | zero =>
    rintro c hc ⟨j, h1, h2, _⟩
    omega
  | succ n ih =>
    rintro c hc ⟨j, h1, h2, h3⟩
    have hc10 : c < 10 := by omega
    have hcl : c < bat671723HS25C.length := by rw [bat_length]; exact hc10
    rw [chargeSearch, dif_pos hcl, chargeSearchReads, dif_pos hcl]
    by_cases hv : v > bat671723HS25C[c]
    · rw [if_pos hv, if_pos hv]
      have hjc : j ≠ c := by
        rintro rfl
        rw [bat_getD j h2] at h3
        exact absurd hv (not_lt.mpr h3)
      obtain ⟨i, e, hi1, hi2, hr⟩ := ih (c + 1) (by omega) ⟨j, by omega, h2, h3⟩
      refine ⟨i, e, by omega, hi2, ?_⟩
      rw [hr]
      have hlen : i + 1 - c = (i + 1 - (c + 1)) + 1 := by omega
      rw [hlen, List.range_succ_eq_map]
      simp only [List.map_cons, List.map_map, Nat.add_zero]
      congr 1
      apply List.map_congr_left
      intro k _
      simp only [Function.comp, Nat.succ_eq_add_one]
      omega
    · rw [if_neg hv, if_neg hv]
      refine ⟨c, rfl, le_refl _, hc10, ?_⟩
      have hlen : c + 1 - c = 1 := by omega
      rw [hlen]
      rfl

/-- Without the second guard the loop would leave the table: entered with 5.0 V it has no
defined result, and its last read is at index 10. -/
theorem chargeSearch_past_table :
    chargeSearch 5.0 0 = none ∧ chargeSearchReads 5.0 0 = [0, 1, 2, 3, 4, 5, 6, 7, 8, 9, 10] := by
  constructor
  · simp [chargeSearch, bat671723HS25C]; norm_num
  · simp [chargeSearchReads, bat671723HS25C]; norm_num

/-- C22 (breakpoint search terminates in bounds): for every voltage
`pmBatteryChargeFromVoltage` returns, with a charge of at most 9, and every table index it
reads is at most 9.  Its search loop is entered only for a voltage not below the first and
not above the last breakpoint; it then reads exactly the indices 0 to the returned charge,
one per test of its condition, so it makes as many increments as the returned charge, at
most 9, and never reads index 10. -/
theorem C22_search_terminates_in_bounds (v : ℚ) :
    ∃ i, pmBatteryChargeFromVoltage v = some i ∧ i ≤ 9 ∧
      (∀ k ∈ pmBatteryChargeReads v, k ≤ 9) ∧
      ((v < 3.00 ∧ pmBatteryChargeReads v = [0]) ∨
       (4.10 < v ∧ pmBatteryChargeReads v = [0, 9]) ∨
       (3.00 ≤ v ∧ v ≤ 4.10 ∧ chargeSearch v 0 = some i ∧
         chargeSearchReads v 0 = List.range (i + 1) ∧
         (chargeSearchReads v 0).length = i + 1 ∧
         pmBatteryChargeReads v = [0, 9] ++ List.range (i + 1))) := by
  have e0 : bat671723HS25C.getD 0 0 = 3.00 := by norm_num [bat671723HS25C]
  have e9 : bat671723HS25C.getD 9 0 = 4.10 := by norm_num [bat671723HS25C]
  unfold pmBatteryChargeFromVoltage pmBatteryChargeReads
  rw [e0, e9]
  by_cases h0 : v < 3.00
  · rw [if_pos h0, if_pos h0]
    refine ⟨0, rfl, by norm_num, ?_, Or.inl ⟨h0, rfl⟩⟩
    intro k hk
    simp only [List.mem_singleton] at hk
    omega
  · rw [if_neg h0, if_neg h0]
    by_cases h9 : v > 4.10
    · rw [if_pos h9, if_pos h9]
      refine ⟨9, rfl, le_refl _, ?_, Or.inr (Or.inl ⟨h9, rfl⟩)⟩
      intro k hk
      simp only [List.mem_cons, List.mem_singleton, List.not_mem_nil, or_false] at hk
      omega
    · rw [if_neg h9, if_neg h9]
      obtain ⟨i, e, _, hi, hr⟩ :=
        chargeSearchReads_spec v 10 0 rfl
          ⟨9, by norm_num, by norm_num, by rw [e9]; exact not_lt.mp h9⟩
      have hr' : chargeSearchReads v 0 = List.range (i + 1) := by
        rw [hr]
        simp
      refine ⟨i, e, by omega, ?_, Or.inr (Or.inr ⟨not_lt.mp h0, not_lt.mp h9, e, hr', ?_, ?_⟩)⟩
      · intro k hk
        rw [hr'] at hk
        simp only [List.mem_append, List.mem_cons, List.mem_singleton, List.not_mem_nil,
          or_false, List.mem_range] at hk
        omega
      · rw [hr', List.length_range]
      · rw [hr']

end EspFly
